import Mathlib

/-!
Verification of the report-designer generation core against its source.

The definitions below are shallow embeddings of the Python source in
`src/workspace/data_sources.py` and `src/generation/pipeline.py`:
pure functions become Lean functions, Python `//` and `%` become
`Int.fdiv` / `Int.fmod` (identical semantics), dict-shaped values become
explicit structures or association lists, and external collaborators
(storage, registry, LLM, retrieval) become oracle parameters.
-/

namespace ReportDesigner

/-- The canonical fiscal quarters in order (`VALID_FISCAL_QUARTERS`). -/
def VALID_FISCAL_QUARTERS : List String := ["Q1", "Q2", "Q3", "Q4"]

/-- Embedding of `_shift_period` (data_sources.py:155-161): shift a fiscal
period by whole-quarter offsets.  Python `//`/`%` are floor division and
floor modulus, i.e. `Int.fdiv`/`Int.fmod`.  `List.getD` with the in-range
floor modulus mirrors the Python list indexing. -/
def shift_period (fiscal_year : Int) (fiscal_quarter : String) (offset_quarters : Int) :
    Int × String :=
  let quarter_index : Int := (VALID_FISCAL_QUARTERS.indexOf fiscal_quarter : Nat)
  let absolute : Int := fiscal_year * 4 + quarter_index + offset_quarters
  (absolute.fdiv 4, VALID_FISCAL_QUARTERS.getD (absolute.fmod 4).toNat "Q1")

/-- Output value of `_resolve_period_selector`: a period object, a scalar
projection (integer year or string quarter), or an array of periods. -/
inductive PeriodValue where
  | obj (fiscal_year : Int) (fiscal_quarter : String)
  | intVal (n : Int)
  | strVal (s : String)
  | arr (periods : List (Int × String))
deriving DecidableEq, Repr

/-- Embedding of `_resolve_period_selector` (data_sources.py:164-216).
The Python dict lookup over the selector mapping becomes a chain of
string comparisons; an unknown selector raises `ValueError`, embedded as
`Except.error`. -/
def resolve_period_selector (selector : String) (anchor_year : Int) (anchor_quarter : String)
    (count : Option Int) : Except String PeriodValue :=
  let qoq := shift_period anchor_year anchor_quarter (-1)
  let yoy := shift_period anchor_year anchor_quarter (-4)
  if selector = "current" then .ok (.obj anchor_year anchor_quarter)
  else if selector = "last_quarter" then .ok (.obj qoq.1 qoq.2)
  else if selector = "qoq" then .ok (.obj qoq.1 qoq.2)
  else if selector = "yoy" then .ok (.obj yoy.1 yoy.2)
  else if selector = "current.fiscal_year" then .ok (.intVal anchor_year)
  else if selector = "current.fiscal_quarter" then .ok (.strVal anchor_quarter)
  else if selector = "last_quarter.fiscal_year" then .ok (.intVal qoq.1)
  else if selector = "last_quarter.fiscal_quarter" then .ok (.strVal qoq.2)
  else if selector = "qoq.fiscal_year" then .ok (.intVal qoq.1)
  else if selector = "qoq.fiscal_quarter" then .ok (.strVal qoq.2)
  else if selector = "yoy.fiscal_year" then .ok (.intVal yoy.1)
  else if selector = "yoy.fiscal_quarter" then .ok (.strVal yoy.2)
  else if selector = "trailing_quarters" then
    let trailing_count : Int := count.getD 4
    .ok (.arr ((List.range trailing_count.toNat).map (fun idx : Nat =>
      shift_period anchor_year anchor_quarter (-(trailing_count - 1 - (idx : Int))))))
  else .error s!"Unsupported period selector {selector}"

/-- Absolute quarter index of a period: `fiscal_year * 4 + quarter_index`.
Two valid periods compare chronologically exactly as their absolute
indexes compare. -/
def periodAbs (p : Int × String) : Int :=
  p.1 * 4 + (VALID_FISCAL_QUARTERS.indexOf p.2 : Nat)

/-- `shift_period` adds exactly `off` to the absolute quarter index and
always yields a valid quarter string. -/
theorem shift_period_spec (y : Int) (q : String) (off : Int)
    (hq : q ∈ VALID_FISCAL_QUARTERS) :
    periodAbs (shift_period y q off) = periodAbs (y, q) + off ∧
      (shift_period y q off).2 ∈ VALID_FISCAL_QUARTERS := by
  have hq4 : VALID_FISCAL_QUARTERS.indexOf q < 4 := by
    fin_cases hq <;> decide
  set a : Int := y * 4 + (VALID_FISCAL_QUARTERS.indexOf q : Nat) + off with ha
  have h4 : (0:Int) ≤ 4 := by norm_num
  have hfd : a.fdiv 4 = a / 4 := Int.fdiv_eq_ediv a (by norm_num)
  have hfm : a.fmod 4 = a % 4 := Int.fmod_eq_emod a (by norm_num)
  have hmlt : a % 4 < 4 := Int.emod_lt_of_pos a (by norm_num)
  have hmge : 0 ≤ a % 4 := Int.emod_nonneg a (by norm_num)
  have hidx : ∀ k : Nat, k < 4 →
      (VALID_FISCAL_QUARTERS.indexOf (VALID_FISCAL_QUARTERS.getD k "Q1") : Int) = k ∧
        VALID_FISCAL_QUARTERS.getD k "Q1" ∈ VALID_FISCAL_QUARTERS := by
    intro k hk
    interval_cases k <;> exact ⟨by decide, by decide⟩
  have hk4 : (a % 4).toNat < 4 := by omega
  obtain ⟨hidx1, hidx2⟩ := hidx (a % 4).toNat hk4
  constructor
  · show a.fdiv 4 * 4 + ((VALID_FISCAL_QUARTERS.indexOf
        (VALID_FISCAL_QUARTERS.getD (a.fmod 4).toNat "Q1") : Nat) : Int) = _
    rw [hfm, hfd, hidx1]
    have : (a % 4).toNat = a % 4 := Int.toNat_of_nonneg hmge
    simp only [periodAbs]
    omega
  · show VALID_FISCAL_QUARTERS.getD (a.fmod 4).toNat "Q1" ∈ VALID_FISCAL_QUARTERS
    rw [hfm]; exact hidx2

/-- `periodAbs` is injective on periods with valid quarters. -/
theorem periodAbs_inj (p p' : Int × String)
    (hp : p.2 ∈ VALID_FISCAL_QUARTERS) (hp' : p'.2 ∈ VALID_FISCAL_QUARTERS)
    (h : periodAbs p = periodAbs p') : p = p' := by
  obtain ⟨y, q⟩ := p
  obtain ⟨y', q'⟩ := p'
  have i1 : List.indexOf "Q1" VALID_FISCAL_QUARTERS = 0 := by decide
  have i2 : List.indexOf "Q2" VALID_FISCAL_QUARTERS = 1 := by decide
  have i3 : List.indexOf "Q3" VALID_FISCAL_QUARTERS = 2 := by decide
  have i4 : List.indexOf "Q4" VALID_FISCAL_QUARTERS = 3 := by decide
  simp only [periodAbs] at h
  fin_cases hp <;> fin_cases hp' <;>
    simp_all [i1, i2, i3, i4] <;> omega

/-- `shift_period` is determined by its effect on the absolute index. -/
theorem shift_period_eq (y : Int) (q : String) (off : Int)
    (hq : q ∈ VALID_FISCAL_QUARTERS) (y' : Int) (q' : String)
    (hq' : q' ∈ VALID_FISCAL_QUARTERS)
    (habs : periodAbs (y', q') = periodAbs (y, q) + off) :
    shift_period y q off = (y', q') := by
  obtain ⟨h1, h2⟩ := shift_period_spec y q off hq
  exact periodAbs_inj _ _ h2 hq' (by rw [h1, habs])

/-- C8: for every valid anchor, selector `yoy` shifts by exactly -4 quarters
(same fiscal quarter, fiscal year minus 1), `qoq`/`last_quarter` shift by
exactly -1 quarter, and `current` shifts by 0; in particular anchor
(2025, Q1) with `yoy` resolves to (2024, Q1). -/
theorem claim_C8_relative_selectors (y : Int) (q : String)
    (hq : q ∈ VALID_FISCAL_QUARTERS) :
    resolve_period_selector "yoy" y q none = .ok (.obj (y - 1) q) ∧
    (∃ p : Int × String, p.2 ∈ VALID_FISCAL_QUARTERS ∧
      periodAbs p = periodAbs (y, q) - 1 ∧
      resolve_period_selector "qoq" y q none = .ok (.obj p.1 p.2) ∧
      resolve_period_selector "last_quarter" y q none = .ok (.obj p.1 p.2)) ∧
    resolve_period_selector "current" y q none = .ok (.obj y q) := by
  have hyoy : shift_period y q (-4) = (y - 1, q) := by
    apply shift_period_eq y q (-4) hq (y - 1) q hq
    simp only [periodAbs]
    ring
  refine ⟨?_, ⟨shift_period y q (-1), ?_, ?_, ?_, ?_⟩, ?_⟩
  · simp only [resolve_period_selector, hyoy]
    rfl
  · exact (shift_period_spec y q (-1) hq).2
  · have := (shift_period_spec y q (-1) hq).1
    omega
  · rfl
  · rfl
  · rfl

/-- Witness for C8 at the concrete anchor (2025, Q1) from the spec. -/
theorem claim_C8_witness :
    resolve_period_selector "yoy" 2025 "Q1" none = .ok (.obj 2024 "Q1") :=
  (claim_C8_relative_selectors 2025 "Q1" (by decide)).1

/-- C7: resolving `trailing_quarters` with positive count `n` yields exactly
`n` fiscal periods with valid quarters, consecutive (each absolute quarter
index one more than the previous, hence strictly increasing oldest-to-newest),
the last of which is the anchor; with `count` absent, the count defaults
to 4. -/
theorem claim_C7_trailing_quarters (y : Int) (q : String)
    (hq : q ∈ VALID_FISCAL_QUARTERS) (n : Int) (hn : 1 ≤ n) :
    ∃ ps : List (Int × String),
      resolve_period_selector "trailing_quarters" y q (some n) = .ok (.arr ps) ∧
      ps.length = n.toNat ∧
      (∀ p ∈ ps, p.2 ∈ VALID_FISCAL_QUARTERS) ∧
      (∀ i : Nat, (h : i + 1 < ps.length) →
        periodAbs (ps.get ⟨i + 1, h⟩) = periodAbs (ps.get ⟨i, by omega⟩) + 1) ∧
      List.Chain' (fun p p2 => periodAbs p < periodAbs p2) ps ∧
      ps.getLast? = some (y, q) ∧
      resolve_period_selector "trailing_quarters" y q none =
        resolve_period_selector "trailing_quarters" y q (some 4) := by
  refine ⟨(List.range n.toNat).map (fun idx : Nat =>
      shift_period y q (-(n - 1 - (idx : Int)))), rfl, by simp, ?_, ?_, ?_, ?_, rfl⟩
  · intro p hp
    simp only [List.mem_map, List.mem_range] at hp
    obtain ⟨idx, _, rfl⟩ := hp
    exact (shift_period_spec y q _ hq).2
  · intro i h
    simp only [List.length_map, List.length_range] at h
    have e1 := (shift_period_spec y q (-(n - 1 - ((i : Int) + 1))) hq).1
    have e2 := (shift_period_spec y q (-(n - 1 - (i : Int))) hq).1
    simp only [List.get_eq_getElem, List.getElem_map, List.getElem_range]
    push_cast
    rw [e1, e2]
    omega
  · rw [List.chain'_iff_get]
    intro i h
    simp only [List.length_map, List.length_range] at h
    have e1 := (shift_period_spec y q (-(n - 1 - ((i : Int) + 1))) hq).1
    have e2 := (shift_period_spec y q (-(n - 1 - (i : Int))) hq).1
    simp only [List.get_eq_getElem, List.getElem_map, List.getElem_range]
    push_cast
    rw [e1, e2]
    omega
  · have hlen : ((List.range n.toNat).map (fun idx : Nat =>
        shift_period y q (-(n - 1 - (idx : Int))))).length = n.toNat := by simp
    have hpos : 0 < n.toNat := by omega
    rw [List.getLast?_eq_getElem?, hlen]
    have hlt : n.toNat - 1 < n.toNat := by omega
    have hoff : -(n - 1 - ((n.toNat - 1 : Nat) : Int)) = 0 := by omega
    have hf : shift_period y q (-(n - 1 - ((n.toNat - 1 : Nat) : Int))) = (y, q) := by
      rw [hoff]
      exact shift_period_eq y q 0 hq y q hq (by ring)
    rw [List.getElem?_map, List.getElem?_range hlt]
    simp only [Option.map]
    rw [hf]

/-- Witness for C7 with anchor (2025, Q3) and count 3. -/
theorem claim_C7_witness :
    "Q3" ∈ VALID_FISCAL_QUARTERS ∧ (1 : Int) ≤ 3 ∧
    (∃ ps : List (Int × String),
      resolve_period_selector "trailing_quarters" 2025 "Q3" (some 3) = .ok (.arr ps) ∧
      ps.length = (3 : Int).toNat ∧
      (∀ p ∈ ps, p.2 ∈ VALID_FISCAL_QUARTERS) ∧
      (∀ i : Nat, (h : i + 1 < ps.length) →
        periodAbs (ps.get ⟨i + 1, h⟩) = periodAbs (ps.get ⟨i, by omega⟩) + 1) ∧
      List.Chain' (fun p p2 => periodAbs p < periodAbs p2) ps ∧
      ps.getLast? = some (2025, "Q3") ∧
      resolve_period_selector "trailing_quarters" 2025 "Q3" none =
        resolve_period_selector "trailing_quarters" 2025 "Q3" (some 4)) :=
  ⟨by decide, by norm_num,
    claim_C7_trailing_quarters 2025 "Q3" (by decide) 3 (by norm_num)⟩

/-! ## Parameter values and pre-resolution type validation (data_sources.py) -/

/-- Python `str.strip()`: drop leading and trailing whitespace. -/
def pyStrip (s : String) : String :=
  String.mk (((s.data.dropWhile Char.isWhitespace).reverse.dropWhile
    Char.isWhitespace).reverse)

/-- Python `str.lower()`: lower-case every character. -/
def pyToLower (s : String) : String :=
  String.mk (s.data.map Char.toLower)

/-- Python `str.upper()`: upper-case every character. -/
def pyToUpper (s : String) : String :=
  String.mk (s.data.map Char.toUpper)

/-- A Python/JSON-like value as handled by the validator.  Floating point
numbers do not occur in any embedded claim; numeric values are modelled as
integers. -/
inductive PyVal where
  | vNone
  | vBool (b : Bool)
  | vInt (n : Int)
  | vStr (s : String)
  | vList (xs : List PyVal)
  | vDict (kvs : List (String × PyVal))

/-- `dict.get(k)`: first-match lookup in the association list. -/
def dictGet (kvs : List (String × PyVal)) (k : String) : Option PyVal :=
  (kvs.find? (fun kv => kv.1 = k)).map (fun kv => kv.2)

/-- Embedding of `is_variable_binding` (data_sources.py:113-119). -/
def is_variable_binding (value : PyVal) : Bool :=
  match value with
  | .vDict kvs =>
    match dictGet kvs "$var" with
    | some (.vStr s) => !(pyStrip s = "")
    | _ => false
  | _ => false

/-- Embedding of `is_period_binding` (data_sources.py:129-135). -/
def is_period_binding (value : PyVal) : Bool :=
  match value with
  | .vDict kvs =>
    match dictGet kvs "$period" with
    | some (.vStr s) => !(pyStrip s = "")
    | _ => false
  | _ => false

/-- Embedding of `get_period_selector` (data_sources.py:138-142). -/
def get_period_selector (value : PyVal) : Option String :=
  if is_period_binding value then
    match value with
    | .vDict kvs =>
      match dictGet kvs "$period" with
      | some (.vStr s) => some (pyStrip s)
      | _ => none
    | _ => none
  else none

/-- The fixed output shape of each period selector
(`selector_shape` table, data_sources.py:230-244). -/
def selector_shape (selector : String) : Option String :=
  if selector = "current" then some "object"
  else if selector = "last_quarter" then some "object"
  else if selector = "qoq" then some "object"
  else if selector = "yoy" then some "object"
  else if selector = "current.fiscal_year" then some "integer"
  else if selector = "current.fiscal_quarter" then some "string"
  else if selector = "last_quarter.fiscal_year" then some "integer"
  else if selector = "last_quarter.fiscal_quarter" then some "string"
  else if selector = "qoq.fiscal_year" then some "integer"
  else if selector = "qoq.fiscal_quarter" then some "string"
  else if selector = "yoy.fiscal_year" then some "integer"
  else if selector = "yoy.fiscal_quarter" then some "string"
  else if selector = "trailing_quarters" then some "array"
  else none

/-- Shape/type compatibility rule (data_sources.py:254-261). -/
def shapeCompatible (expected_type expected_shape : String) : Bool :=
  if expected_type = "number" then expected_shape = "integer"
  else if expected_type = "enum" then expected_shape = "string"
  else if expected_type = "string" then expected_shape = "string"
  else expected_shape = expected_type

/-- Validity check on the `$count` field of a period binding
(data_sources.py:226-228): an absent or `None` count passes, otherwise
it must be a non-bool integer at least 1. -/
def countInvalid : Option PyVal → Bool
  | none => false
  | some .vNone => false
  | some (.vInt n) => n < 1
  | some _ => true

/-- Embedding of `_validate_period_binding_for_type`
(data_sources.py:219-268). -/
def validate_period_binding_for_type (expected_type : String) (value : PyVal) :
    Option String :=
  match get_period_selector value with
  | none => some "Period binding must include non-empty $period"
  | some selector =>
    let count := match value with | .vDict kvs => dictGet kvs "$count" | _ => none
    if countInvalid count then
      some "Period binding $count must be a positive integer"
    else
      match selector_shape selector with
      | none => some s!"Unsupported period selector {selector}"
      | some expected_shape =>
        if shapeCompatible expected_type expected_shape then none
        else some s!"Period selector {selector} is not compatible with parameter type {expected_type}"

/-- A registry method parameter definition: declared key, type, enum
options (`options`/`enum`), and array item options (`items.options`). -/
structure ParamDef where
  key : String
  type : String
  options : List String
  item_options : List String
deriving DecidableEq, Repr

/-- Python membership of an arbitrary value in a list of strings: only a
string value can compare equal. -/
def pyValInStrList (x : PyVal) (allowed : List String) : Bool :=
  match x with
  | .vStr s => allowed.contains s
  | _ => false

/-- Embedding of `_validate_parameter_type` (data_sources.py:284-348):
validate one parameter value against a method parameter definition.
When `allow_variable_bindings` is set, variable bindings are accepted
unconditionally and period bindings go through the shape check. -/
def validate_parameter_type (pd : ParamDef) (value : PyVal)
    (allow_variable_bindings : Bool) : Option String :=
  let expected_type := pyToLower pd.type
  let key := pd.key
  if allow_variable_bindings && is_variable_binding value then none
  else if allow_variable_bindings && is_period_binding value then
    validate_period_binding_for_type expected_type value
  else if expected_type = "string" then
    match value with
    | .vStr _ => none
    | _ => some s!"Parameter {key} must be a string"
  else if expected_type = "enum" then
    match value with
    | .vStr s =>
      if !pd.options.isEmpty && !pd.options.contains s then
        some s!"Parameter {key} must be one of the declared options"
      else none
    | _ => some s!"Parameter {key} must be one of the declared options"
  else if expected_type = "integer" then
    match value with
    | .vInt _ => none
    | _ => some s!"Parameter {key} must be an integer"
  else if expected_type = "number" then
    match value with
    | .vInt _ => none
    | _ => some s!"Parameter {key} must be a number"
  else if expected_type = "boolean" then
    match value with
    | .vBool _ => none
    | _ => some s!"Parameter {key} must be a boolean"
  else if expected_type = "array" then
    match value with
    | .vList xs =>
      if !pd.item_options.isEmpty &&
          !(xs.filter (fun x => !pyValInStrList x pd.item_options)).isEmpty then
        some s!"Parameter {key} has invalid items"
      else none
    | _ => some s!"Parameter {key} must be an array"
  else if expected_type = "object" then
    match value with
    | .vDict _ => none
    | _ => some s!"Parameter {key} must be an object"
  else none

/-- A canonical period binding value `{"$period": sel}` or
`{"$period": sel, "$count": c}` (the PeriodBinding shape of the data
model). -/
def periodBindingPy (sel : String) (cnt : Option Int) : PyVal :=
  .vDict ([("$period", .vStr sel)] ++
    (match cnt with
     | some c => [("$count", .vInt c)]
     | none => []))

/-- C9 counterexample: the period binding
`{"$period": "trailing_quarters", "$count": 0}` has output shape `array`,
compatible with a declared `array` parameter, yet pre-resolution validation
rejects it (the `$count` check fires), so acceptance is not equivalent to
shape compatibility as the claim states. -/
theorem claim_C9_counterexample :
    is_period_binding (periodBindingPy "trailing_quarters" (some 0)) = true ∧
    selector_shape "trailing_quarters" = some "array" ∧
    shapeCompatible "array" "array" = true ∧
    validate_parameter_type ⟨"metrics", "array", [], []⟩
      (periodBindingPy "trailing_quarters" (some 0)) true ≠ none := by
  refine ⟨rfl, rfl, rfl, ?_⟩
  decide

/-- C9 (amended): with `allow_bindings` true, a variable binding is accepted
with no type error regardless of the declared parameter type; a canonical
period binding whose `$count`, when present, is a positive integer is
accepted if and only if its selector is known and its fixed output shape is
compatible with the declared parameter type (so an unknown selector is
rejected). -/
theorem claim_C9_binding_type_check (pd : ParamDef) :
    (∀ v : PyVal, is_variable_binding v = true →
      validate_parameter_type pd v true = none) ∧
    (∀ sel : String, ∀ cnt : Option Int, pyStrip sel ≠ "" →
      (∀ c, cnt = some c → 1 ≤ c) →
      (validate_parameter_type pd (periodBindingPy sel cnt) true = none ↔
        ∃ shape, selector_shape (pyStrip sel) = some shape ∧
          shapeCompatible (pyToLower pd.type) shape = true)) := by
  constructor
  · intro v hv
    simp [validate_parameter_type, hv]
  · intro sel cnt hsel hcnt
    have hval : validate_parameter_type pd (periodBindingPy sel cnt) true =
        (match selector_shape (pyStrip sel) with
         | none => some s!"Unsupported period selector {pyStrip sel}"
         | some expected_shape =>
           if shapeCompatible (pyToLower pd.type) expected_shape then none
           else some s!"Period selector {pyStrip sel} is not compatible with parameter type {pyToLower pd.type}") := by
      cases cnt with
      | none =>
        simp [validate_parameter_type, validate_period_binding_for_type,
          get_period_selector, is_period_binding, is_variable_binding,
          periodBindingPy, dictGet, countInvalid, hsel]
      | some c =>
        have h1 : ¬ (c < 1) := by have := hcnt c rfl; omega
        simp [validate_parameter_type, validate_period_binding_for_type,
          get_period_selector, is_period_binding, is_variable_binding,
          periodBindingPy, dictGet, countInvalid, hsel, h1]
    rw [hval]
    cases hs : selector_shape (pyStrip sel) with
    | none =>
      constructor
      · intro h
        exact (Option.some_ne_none _ h).elim
      · rintro ⟨shape, hsh, -⟩
        exact Option.noConfusion hsh
    | some shape =>
      cases hc : shapeCompatible (pyToLower pd.type) shape with
      | true =>
        simp only [hc]
        constructor
        · intro h
          exact ⟨shape, rfl, hc⟩
        · intro h
          simp
      | false =>
        simp only [hc]
        constructor
        · intro h
          simp at h
        · rintro ⟨shape2, hsh, hcc⟩
          obtain rfl : shape = shape2 := Option.some_injective _ hsh
          rw [hc] at hcc
          cases hcc

/-- Witness for the amended C9: an `integer` parameter accepts the period
binding `{"$period": "current.fiscal_year"}`. -/
theorem claim_C9_witness :
    validate_parameter_type ⟨"fiscal_year", "integer", [], []⟩
      (periodBindingPy "current.fiscal_year" none) true = none :=
  ((claim_C9_binding_type_check ⟨"fiscal_year", "integer", [], []⟩).2
    "current.fiscal_year" none (by decide) (fun c h => by cases h)).mpr
    ⟨"integer", by decide, by decide⟩

/-! ## Topological scheduler (`_topological_order_subsection_ids`,
pipeline.py:223-274).

`dependency_map.get(node, [])` is modelled as a total function
`String → List String`, and `subsection_order_map` as an association list
with the Python default `(10_000_000, 10_000_000)` for missing ids.
Python `sorted` is a stable sort by the key `(section_position,
subsection_position, id)`; since the id is part of the key, keys of
distinct ids are distinct and any correct sort produces the unique
key-ordered list, so `List.insertionSort` by the same key agrees with it
on duplicate-free inputs.  The Python `while ready:` loop becomes a
fuel-indexed recursion with fuel `|ids|`; the invariants below show the
ready queue is exhausted within that budget, so no behaviour is lost. -/

/-- Lexicographic order on `(section_position, subsection_position, id)`
keys, matching Python tuple comparison. -/
def keyLe (a b : Int × Int × String) : Prop :=
  a.1 < b.1 ∨ (a.1 = b.1 ∧ (a.2.1 < b.2.1 ∨ (a.2.1 = b.2.1 ∧ a.2.2 ≤ b.2.2)))

instance : DecidableRel keyLe := fun a b => by
  unfold keyLe
  infer_instance

/-- `sort_key` (pipeline.py:247-252). -/
def sort_key (om : List (String × (Int × Int))) (id0 : String) : Int × Int × String :=
  match (om.find? (fun kv => kv.1 = id0)).map (fun kv => kv.2) with
  | some p => (p.1, p.2, id0)
  | none => (10000000, 10000000, id0)

/-- Comparison of two ids through their sort keys. -/
def idLe (om : List (String × (Int × Int))) (a b : String) : Prop :=
  keyLe (sort_key om a) (sort_key om b)

instance (om : List (String × (Int × Int))) : DecidableRel (idLe om) := fun a b => by
  unfold idLe
  infer_instance

/-- The queue-sorting operation: Python `sorted(..., key=sort_key)`. -/
def sortIds (om : List (String × (Int × Int))) (xs : List String) : List String :=
  xs.insertionSort (idLe om)

theorem keyLe_total (a b : Int × Int × String) : keyLe a b ∨ keyLe b a := by
  unfold keyLe
  rcases lt_trichotomy a.1 b.1 with h | h | h
  · exact Or.inl (Or.inl h)
  · rcases lt_trichotomy a.2.1 b.2.1 with h2 | h2 | h2
    · exact Or.inl (Or.inr ⟨h, Or.inl h2⟩)
    · rcases le_total a.2.2 b.2.2 with h3 | h3
      · exact Or.inl (Or.inr ⟨h, Or.inr ⟨h2, h3⟩⟩)
      · exact Or.inr (Or.inr ⟨h.symm, Or.inr ⟨h2.symm, h3⟩⟩)
    · exact Or.inr (Or.inr ⟨h.symm, Or.inl h2⟩)
  · exact Or.inr (Or.inl h)

theorem keyLe_trans (a b c : Int × Int × String)
    (hab : keyLe a b) (hbc : keyLe b c) : keyLe a c := by
  unfold keyLe at *
  rcases hab with h | ⟨h1, h⟩ <;> rcases hbc with g | ⟨g1, g⟩
  · exact Or.inl (h.trans g)
  · exact Or.inl (g1 ▸ h)
  · exact Or.inl (h1 ▸ g)
  · rcases h with h | ⟨h2, h⟩ <;> rcases g with g | ⟨g2, g⟩
    · exact Or.inr ⟨h1.trans g1, Or.inl (h.trans g)⟩
    · exact Or.inr ⟨h1.trans g1, Or.inl (g2 ▸ h)⟩
    · exact Or.inr ⟨h1.trans g1, Or.inl (h2 ▸ g)⟩
    · exact Or.inr ⟨h1.trans g1, Or.inr ⟨h2.trans g2, h.trans g⟩⟩

theorem keyLe_antisymm (a b : Int × Int × String)
    (hab : keyLe a b) (hba : keyLe b a) : a = b := by
  obtain ⟨a1, a2, a3⟩ := a
  obtain ⟨b1, b2, b3⟩ := b
  unfold keyLe at *
  simp only at hab hba
  rcases hab with h | ⟨h1, h⟩ <;> rcases hba with g | ⟨g1, g⟩ <;> try omega
  rcases h with h | ⟨h2, h⟩ <;> rcases g with g | ⟨g2, g⟩ <;> try omega
  have : a3 = b3 := le_antisymm h g
  simp_all

/-- In-set, non-self, de-duplicated dependencies of a node: exactly the
incoming edges that the Python loop adds to `indegree[node]`
(pipeline.py:236-245). -/
def inSetDeps (ids : List String) (dm : String → List String) (n : String) :
    List String :=
  ((dm n).filter (fun d => ids.contains d && !(d = n))).dedup

/-- The dependents of a node (the adjacency set built at
pipeline.py:236-245): members of the generation set that list it as an
in-set, non-self dependency. -/
def dependents (ids : List String) (dm : String → List String) (d : String) :
    List String :=
  ids.filter (fun n => (dm n).contains d && !(n = d))

/-- One pass of the inner `for dependent in sorted(adjacency[current])`
loop (pipeline.py:264-267): decrement each dependent once and collect, in
order, those whose in-degree reaches exactly zero. -/
def decrement_all (deps : List String) (ind : String → Int) :
    (String → Int) × List String :=
  match deps with
  | [] => (ind, [])
  | d :: ds =>
    let ind2 : String → Int := fun x => if x = d then ind x - 1 else ind x
    let rest := decrement_all ds ind2
    (rest.1, (if ind2 d = 0 then [d] else []) ++ rest.2)

/-- The Kahn `while ready:` loop (pipeline.py:260-268), fuel-indexed.
Each iteration pops the least-key ready node, decrements its dependents,
enqueues the newly ready ones and re-sorts the queue, exactly as the
source does. -/
def topo_loop (adj : String → List String) (om : List (String × (Int × Int))) :
    Nat → List String → (String → Int) → List String →
    List String × (String → Int)
  | 0, _, ind, ordered => (ordered, ind)
  | _ + 1, [], ind, ordered => (ordered, ind)
  | fuel + 1, c :: rest, ind, ordered =>
    let step := decrement_all (adj c) ind
    topo_loop adj om fuel (sortIds om (rest ++ step.2)) step.1 (ordered ++ [c])

/-- Embedding of `_topological_order_subsection_ids` (pipeline.py:223-274):
returns the dependency-respecting order, or an empty order plus a
circular-dependency error. -/
def topological_order_subsection_ids (subsection_ids : List String)
    (dependency_map : String → List String)
    (om : List (String × (Int × Int))) : List String × Option String :=
  if subsection_ids.isEmpty then ([], none)
  else
    match subsection_ids.find? (fun nid => (dependency_map nid).contains nid) with
    | some nid =>
      ([], some s!"Circular subsection dependency detected on subsection {nid}")
    | none =>
      let ind0 : String → Int := fun n =>
        ((inSetDeps subsection_ids dependency_map n).length : Int)
      let adjS : String → List String := fun d =>
        sortIds om (dependents subsection_ids dependency_map d)
      let ready0 := sortIds om (subsection_ids.filter (fun n => ind0 n = 0))
      let result := topo_loop adjS om subsection_ids.length ready0 ind0 []
      if result.1.length = subsection_ids.length then (result.1, none)
      else
        let cycle_nodes := subsection_ids.filter (fun n => 0 < result.2 n)
        let cycle_list := String.intercalate ", " cycle_nodes
        ([], some s!"Circular subsection dependencies detected: {cycle_list}")

/-- The dependency edges restricted to the generation set: `d` is listed
as a dependency of `n` and both ids are in the set. -/
def depEdge (ids : List String) (dm : String → List String) (d n : String) : Prop :=
  d ∈ ids ∧ n ∈ ids ∧ d ∈ dm n

/-- Residual in-degree of `n` once the nodes of `ordered` are done. -/
def rCount (ids : List String) (dm : String → List String)
    (ordered : List String) (n : String) : Int :=
  (((inSetDeps ids dm n).filter (fun d => !(ordered.contains d))).length : Int)

theorem mem_inSetDeps (ids : List String) (dm : String → List String)
    (n d : String) :
    d ∈ inSetDeps ids dm n ↔ d ∈ dm n ∧ d ∈ ids ∧ d ≠ n := by
  simp [inSetDeps, List.mem_filter]

theorem inSetDeps_nodup (ids : List String) (dm : String → List String)
    (n : String) : (inSetDeps ids dm n).Nodup :=
  List.nodup_dedup _

theorem mem_dependents (ids : List String) (dm : String → List String)
    (d n : String) :
    n ∈ dependents ids dm d ↔ n ∈ ids ∧ d ∈ dm n ∧ n ≠ d := by
  simp [dependents, List.mem_filter]

theorem sortIds_perm (om : List (String × (Int × Int))) (xs : List String) :
    List.Perm (sortIds om xs) xs :=
  List.perm_insertionSort _ _

theorem mem_sortIds (om : List (String × (Int × Int))) (xs : List String)
    (a : String) : a ∈ sortIds om xs ↔ a ∈ xs :=
  (sortIds_perm om xs).mem_iff

theorem sortIds_nodup (om : List (String × (Int × Int))) (xs : List String)
    (h : xs.Nodup) : (sortIds om xs).Nodup :=
  ((sortIds_perm om xs).nodup_iff).mpr h

theorem decrement_all_spec (ds : List String) (ind : String → Int)
    (hnd : ds.Nodup) :
    (∀ x, (decrement_all ds ind).1 x = if x ∈ ds then ind x - 1 else ind x) ∧
    (decrement_all ds ind).2 = ds.filter (fun d => ind d - 1 == 0) := by
  induction ds generalizing ind with
  | nil => simp [decrement_all]
  | cons d ds ih =>
    obtain ⟨hd, hnds⟩ := List.nodup_cons.mp hnd
    obtain ⟨ih1, ih2⟩ := ih (fun x => if x = d then ind x - 1 else ind x) hnds
    constructor
    · intro x
      rw [show (decrement_all (d :: ds) ind).1 =
        (decrement_all ds (fun x => if x = d then ind x - 1 else ind x)).1 from rfl]
      rw [ih1 x]
      by_cases hx : x = d
      · subst hx
        simp [hd]
      · by_cases hxs : x ∈ ds <;> simp [hx, hxs]
    · rw [show (decrement_all (d :: ds) ind).2 =
        (if (if d = d then ind d - 1 else ind d) = 0 then [d] else []) ++
          (decrement_all ds (fun x => if x = d then ind x - 1 else ind x)).2 from rfl]
      rw [ih2]
      have hcong : ds.filter (fun e =>
          (if e = d then ind e - 1 else ind e) - 1 == 0) =
          ds.filter (fun e => ind e - 1 == 0) := by
        apply List.filter_congr
        intro e he
        have : e ≠ d := fun h => hd (h ▸ he)
        simp [this]
      rw [hcong]
      by_cases h0 : ind d - 1 = 0
      · simp [List.filter_cons, h0]
      · simp [List.filter_cons, h0]

/-- Removing one further node from the exclusion set decrements the
residual count exactly when that node is a pending in-set dependency. -/
theorem rCount_snoc (ids : List String) (dm : String → List String)
    (ordered : List String) (c n : String) (hc : c ∉ ordered) :
    rCount ids dm (ordered ++ [c]) n =
      if c ∈ inSetDeps ids dm n then rCount ids dm ordered n - 1
      else rCount ids dm ordered n := by
  unfold rCount
  have hsplit : (inSetDeps ids dm n).filter
      (fun d => !((ordered ++ [c]).contains d)) =
      ((inSetDeps ids dm n).filter (fun d => !(ordered.contains d))).filter
        (fun d => !(d = c)) := by
    rw [List.filter_filter]
    apply List.filter_congr
    intro d _
    by_cases h1 : d ∈ ordered <;> by_cases h2 : d = c <;>
      simp [h1, h2]
  rw [hsplit]
  by_cases hcin : c ∈ inSetDeps ids dm n
  · have hmem : c ∈ (inSetDeps ids dm n).filter (fun d => !(ordered.contains d)) := by
      simp [List.mem_filter, hcin, hc]
    have hnd2 : ((inSetDeps ids dm n).filter
        (fun d => !(ordered.contains d))).Nodup :=
      (inSetDeps_nodup ids dm n).filter _
    have herase : ((inSetDeps ids dm n).filter
        (fun d => !(ordered.contains d))).filter (fun d => !(d = c)) =
        ((inSetDeps ids dm n).filter (fun d => !(ordered.contains d))).erase c := by
      rw [hnd2.erase_eq_filter]
      apply List.filter_congr
      intro d _
      by_cases h : d = c
      · subst h
        simp
      · have h2 : ¬(c = d) := fun hh => h hh.symm
        simp [h, h2]
    rw [herase, if_pos hcin]
    rw [List.length_erase_of_mem hmem]
    have hpos : 0 < ((inSetDeps ids dm n).filter
        (fun d => !(ordered.contains d))).length := List.length_pos_of_mem hmem
    omega
  · rw [if_neg hcin]
    have : ((inSetDeps ids dm n).filter (fun d => !(ordered.contains d))).filter
        (fun d => !(d = c)) =
        (inSetDeps ids dm n).filter (fun d => !(ordered.contains d)) := by
      apply List.filter_eq_self.mpr
      intro d hd
      have : d ∈ inSetDeps ids dm n := (List.mem_filter.mp hd).1
      have hne : d ≠ c := fun h => hcin (h ▸ this)
      simp [hne]
    rw [this]

theorem rCount_pos_iff (ids : List String) (dm : String → List String)
    (ordered : List String) (n : String) :
    0 < rCount ids dm ordered n ↔
      ∃ d ∈ inSetDeps ids dm n, d ∉ ordered := by
  unfold rCount
  rw [Int.natCast_pos, List.length_pos_iff_exists_mem]
  constructor
  · rintro ⟨d, hd⟩
    obtain ⟨h1, h2⟩ := List.mem_filter.mp hd
    exact ⟨d, h1, by simpa using h2⟩
  · rintro ⟨d, h1, h2⟩
    exact ⟨d, List.mem_filter.mpr ⟨h1, by simpa using h2⟩⟩

theorem rCount_nonneg (ids : List String) (dm : String → List String)
    (ordered : List String) (n : String) : 0 ≤ rCount ids dm ordered n :=
  Int.natCast_nonneg _

/-- If every position of `ordered` is preceded by its in-set dependencies,
then every member of `ordered` has all its in-set dependencies inside
`ordered`. -/
theorem ordered_closed (ids : List String) (dm : String → List String)
    (ordered : List String)
    (hord : ∀ k, (hk : k < ordered.length) →
      ∀ d ∈ inSetDeps ids dm (ordered.get ⟨k, hk⟩), d ∈ ordered.take k)
    (z : String) (hz : z ∈ ordered) (d : String)
    (hd : d ∈ inSetDeps ids dm z) : d ∈ ordered := by
  obtain ⟨⟨k, hk⟩, rfl⟩ := List.mem_iff_get.mp hz
  exact List.take_subset k ordered (hord k hk d hd)

/-- Invariant preservation and postconditions of the Kahn loop: from a
well-formed state the loop returns a duplicate-free output inside the
generation set in which every element is preceded by all of its in-set
dependencies, and every node of the set left out of the output retains a
positive residual in-degree equal to the returned in-degree value. -/
theorem topo_loop_spec (ids : List String) (dm : String → List String)
    (om : List (String × (Int × Int))) (hids : ids.Nodup)
    (adj : String → List String)
    (hadj : ∀ d, adj d = sortIds om (dependents ids dm d)) :
    ∀ (fuel : Nat) (ready : List String) (ind : String → Int) (ordered : List String),
    (∀ n, n ∈ ordered ++ ready → n ∈ ids) →
    (ordered ++ ready).Nodup →
    ids.length ≤ fuel + ordered.length →
    (∀ n ∈ ids, n ∉ ordered → ind n = rCount ids dm ordered n) →
    (∀ n ∈ ready, ∀ d ∈ inSetDeps ids dm n, d ∈ ordered) →
    (∀ n ∈ ids, n ∉ ordered → n ∉ ready → ∃ d ∈ inSetDeps ids dm n, d ∉ ordered) →
    (∀ k, (hk : k < ordered.length) →
      ∀ d ∈ inSetDeps ids dm (ordered.get ⟨k, hk⟩), d ∈ ordered.take k) →
    ((∀ n, n ∈ (topo_loop adj om fuel ready ind ordered).1 → n ∈ ids) ∧
     (topo_loop adj om fuel ready ind ordered).1.Nodup ∧
     (∀ k, (hk : k < (topo_loop adj om fuel ready ind ordered).1.length) →
       ∀ d ∈ inSetDeps ids dm ((topo_loop adj om fuel ready ind ordered).1.get ⟨k, hk⟩),
         d ∈ (topo_loop adj om fuel ready ind ordered).1.take k) ∧
     (∀ n ∈ ids, n ∉ (topo_loop adj om fuel ready ind ordered).1 →
       (topo_loop adj om fuel ready ind ordered).2 n =
         rCount ids dm (topo_loop adj om fuel ready ind ordered).1 n ∧
       0 < (topo_loop adj om fuel ready ind ordered).2 n)) := by
  intro fuel
  induction fuel with
  | zero =>
    intro ready ind ordered hsub hnd hfuel hind hready hnotready hord
    simp only [topo_loop]
    have hordsub : ordered ⊆ ids := fun n hn => hsub n (List.mem_append_left _ hn)
    have hordnd : ordered.Nodup := (List.nodup_append.mp hnd).1
    have hall : ∀ n ∈ ids, n ∈ ordered := by
      intro n hn
      by_contra hno
      have hcard : ordered.toFinset.card = ordered.length :=
        List.toFinset_card_of_nodup hordnd
      have hsubF : ordered.toFinset ⊆ ids.toFinset := by
        intro x hx
        exact List.mem_toFinset.mpr (hordsub (List.mem_toFinset.mp hx))
      have hstrict : ordered.toFinset ⊂ ids.toFinset := by
        refine ⟨hsubF, fun hcontra => ?_⟩
        exact hno (List.mem_toFinset.mp (hcontra (List.mem_toFinset.mpr hn)))
      have := Finset.card_lt_card hstrict
      have hidcard : ids.toFinset.card = ids.length :=
        List.toFinset_card_of_nodup hids
      omega
    refine ⟨fun n hn => hordsub hn, hordnd, hord, ?_⟩
    intro n hn hno
    exact absurd (hall n hn) hno
  | succ fuel ih =>
    intro ready ind ordered hsub hnd hfuel hind hready hnotready hord
    match ready with
    | [] =>
      simp only [topo_loop]
      refine ⟨fun n hn => hsub n (List.mem_append_left _ hn),
        (by simpa using hnd : ordered.Nodup), hord, ?_⟩
      intro n hn hno
      obtain ⟨d, hd1, hd2⟩ := hnotready n hn hno (by simp)
      have hpos : 0 < rCount ids dm ordered n :=
        (rCount_pos_iff ids dm ordered n).mpr ⟨d, hd1, hd2⟩
      have := hind n hn hno
      exact ⟨this, by omega⟩
    | c :: rest =>
      have hc_ids : c ∈ ids := hsub c (by simp)
      have hc_nord : c ∉ ordered := by
        have := List.disjoint_of_nodup_append hnd
        intro hmem
        exact this hmem (by simp)
      have hrest_nc : c ∉ rest := by
        have := (List.nodup_append.mp hnd).2.1
        exact (List.nodup_cons.mp this).1
      -- facts about the adjacency list of c
      have hadjc_nodup : (adj c).Nodup := by
        rw [hadj c]
        exact sortIds_nodup om _ (List.Nodup.filter _ hids)
      have hmem_adjc : ∀ n, n ∈ adj c ↔ (n ∈ ids ∧ c ∈ dm n ∧ n ≠ c) := by
        intro n
        rw [hadj c, mem_sortIds, mem_dependents]
      have hadjc_iff : ∀ n, n ∈ ids → (n ∈ adj c ↔ c ∈ inSetDeps ids dm n) := by
        intro n hn
        rw [hmem_adjc n, mem_inSetDeps]
        constructor
        · rintro ⟨-, h2, h3⟩
          exact ⟨h2, hc_ids, fun h => h3 h.symm⟩
        · rintro ⟨h1, -, h3⟩
          exact ⟨hn, h1, fun h => h3 h.symm⟩
      obtain ⟨hind_spec, hzero_spec⟩ := decrement_all_spec (adj c) ind hadjc_nodup
      have hloop : topo_loop adj om (fuel + 1) (c :: rest) ind ordered =
          topo_loop adj om fuel
            (sortIds om (rest ++ (decrement_all (adj c) ind).2))
            (decrement_all (adj c) ind).1 (ordered ++ [c]) := rfl
      rw [hloop]
      -- characterize the zeros list
      have hzmem : ∀ z, z ∈ (decrement_all (adj c) ind).2 ↔
          z ∈ adj c ∧ ind z - 1 = 0 := by
        intro z
        rw [hzero_spec, List.mem_filter]
        simp
      -- members of zeros are fresh: in ids, not ordered, not c, not in rest
      have hz_ids : ∀ z ∈ (decrement_all (adj c) ind).2, z ∈ ids := by
        intro z hz
        exact ((hmem_adjc z).mp ((hzmem z).mp hz).1).1
      have hz_nc : ∀ z ∈ (decrement_all (adj c) ind).2, z ≠ c := by
        intro z hz
        exact ((hmem_adjc z).mp ((hzmem z).mp hz).1).2.2
      have hz_nord : ∀ z ∈ (decrement_all (adj c) ind).2, z ∉ ordered := by
        intro z hz hmem
        have hcz : c ∈ inSetDeps ids dm z :=
          (hadjc_iff z (hz_ids z hz)).mp ((hzmem z).mp hz).1
        exact hc_nord (ordered_closed ids dm ordered hord z hmem c hcz)
      have hz_nrest : ∀ z ∈ (decrement_all (adj c) ind).2, z ∉ rest := by
        intro z hz hmem
        have hcz : c ∈ inSetDeps ids dm z :=
          (hadjc_iff z (hz_ids z hz)).mp ((hzmem z).mp hz).1
        exact hc_nord (hready z (by simp [hmem]) c hcz)
      have hz_nodup : (decrement_all (adj c) ind).2.Nodup := by
        rw [hzero_spec]
        exact hadjc_nodup.filter _
      apply ih
      -- H1: subset of ids
      · intro n hn
        rcases List.mem_append.mp hn with h | h
        · rcases List.mem_append.mp h with h2 | h2
          · exact hsub n (List.mem_append_left _ h2)
          · simp at h2
            subst h2
            exact hc_ids
        · rw [mem_sortIds] at h
          rcases List.mem_append.mp h with h2 | h2
          · exact hsub n (by simp [h2])
          · exact hz_ids n h2
      -- H2: nodup
      · have hperm : List.Perm ((ordered ++ [c]) ++
            sortIds om (rest ++ (decrement_all (adj c) ind).2))
            ((ordered ++ c :: rest) ++ (decrement_all (adj c) ind).2) := by
          refine List.Perm.trans (List.Perm.append_left _ (sortIds_perm om _)) ?_
          have : List.Perm ((ordered ++ [c]) ++ (rest ++ (decrement_all (adj c) ind).2))
              ((ordered ++ c :: rest) ++ (decrement_all (adj c) ind).2) := by
            simp only [List.append_assoc]
            refine List.Perm.append_left _ ?_
            simp only [List.singleton_append]
            exact List.Perm.refl _
          exact this
        rw [List.Perm.nodup_iff hperm]
        rw [List.nodup_append]
        refine ⟨hnd, hz_nodup, ?_⟩
        intro z hz1 hz2
        rcases List.mem_append.mp hz1 with h | h
        · exact hz_nord z hz2 h
        · rcases List.mem_cons.mp h with h2 | h2
          · exact hz_nc z hz2 h2
          · exact hz_nrest z hz2 h2
      -- H3: fuel
      · simp only [List.length_append, List.length_cons]
        omega
      -- H4: in-degree bookkeeping
      · intro n hn hno
        have hn_nc : n ≠ c := fun h => hno (by simp [h])
        have hn_nord : n ∉ ordered := fun h => hno (by simp [h])
        rw [hind_spec n, rCount_snoc ids dm ordered c n hc_nord]
        by_cases hcn : c ∈ inSetDeps ids dm n
        · rw [if_pos ((hadjc_iff n hn).mpr hcn), if_pos hcn,
            hind n hn hn_nord]
        · rw [if_neg (fun h => hcn ((hadjc_iff n hn).mp h)), if_neg hcn,
            hind n hn hn_nord]
      -- H5: ready members have all deps done
      · intro n hn d hd
        rw [mem_sortIds] at hn
        rcases List.mem_append.mp hn with h | h
        · exact List.mem_append_left _ (hready n (by simp [h]) d hd)
        · -- n is a fresh zero: its residual count w.r.t. ordered ++ [c] is 0
          have hn_ids : n ∈ ids := hz_ids n h
          have hn_nord : n ∉ ordered := hz_nord n h
          obtain ⟨hn_adj, hn_ind⟩ := (hzmem n).mp h
          have hcn : c ∈ inSetDeps ids dm n := (hadjc_iff n hn_ids).mp hn_adj
          have h1 : ind n = rCount ids dm ordered n := hind n hn_ids hn_nord
          have h2 : rCount ids dm (ordered ++ [c]) n = 0 := by
            rw [rCount_snoc ids dm ordered c n hc_nord, if_pos hcn]
            omega
          by_contra hdno
          have : 0 < rCount ids dm (ordered ++ [c]) n :=
            (rCount_pos_iff ids dm (ordered ++ [c]) n).mpr ⟨d, hd, hdno⟩
          omega
      -- H6: nodes neither done nor ready keep a pending dependency
      · intro n hn hno hnr
        have hn_nc : n ≠ c := fun h => hno (by simp [h])
        have hn_nord : n ∉ ordered := fun h => hno (by simp [h])
        rw [mem_sortIds] at hnr
        have hn_nrest : n ∉ rest := fun h => hnr (List.mem_append_left _ h)
        have hn_nzero : n ∉ (decrement_all (adj c) ind).2 :=
          fun h => hnr (List.mem_append_right _ h)
        obtain ⟨d, hd1, hd2⟩ := hnotready n hn hn_nord (by simp [hn_nc, hn_nrest])
        by_cases hcn : c ∈ inSetDeps ids dm n
        · -- n was decremented but did not reach zero
          have hn_adj : n ∈ adj c := (hadjc_iff n hn).mpr hcn
          have hne1 : ¬ (ind n - 1 = 0) := by
            intro h
            exact hn_nzero ((hzmem n).mpr ⟨hn_adj, h⟩)
          have h1 : ind n = rCount ids dm ordered n := hind n hn hn_nord
          have hge1 : 0 < rCount ids dm ordered n :=
            (rCount_pos_iff ids dm ordered n).mpr ⟨c, hcn, hc_nord⟩
          have h2 : 0 < rCount ids dm (ordered ++ [c]) n := by
            rw [rCount_snoc ids dm ordered c n hc_nord, if_pos hcn]
            omega
          obtain ⟨e, he1, he2⟩ := (rCount_pos_iff ids dm (ordered ++ [c]) n).mp h2
          exact ⟨e, he1, he2⟩
        · refine ⟨d, hd1, ?_⟩
          intro hmem
          rcases List.mem_append.mp hmem with h | h
          · exact hd2 h
          · simp at h
            subst h
            exact hcn hd1
      -- H7: order soundness extended to ordered ++ [c]
      · intro k hk d hd
        simp only [List.length_append, List.length_cons, List.length_nil] at hk
        by_cases hklt : k < ordered.length
        · have hget : (ordered ++ [c]).get ⟨k, by simpa using hk⟩ =
              ordered.get ⟨k, hklt⟩ := by
            rw [List.get_append]
          rw [hget] at hd
          have htake : (ordered ++ [c]).take k = ordered.take k := by
            rw [List.take_append_eq_append_take]
            have : k - ordered.length = 0 := by omega
            rw [this]
            simp
          rw [htake]
          exact hord k hklt d hd
        · have hkeq : k = ordered.length := by omega
          subst hkeq
          have hget : (ordered ++ [c]).get ⟨ordered.length, by simp⟩ = c := by
            simp
          rw [hget] at hd
          have htake : (ordered ++ [c]).take ordered.length = ordered := by
            rw [List.take_append_eq_append_take]
            simp
          rw [htake]
          exact hready c (by simp) d hd

/-- In a finite set in which every member has an incoming edge from a
member, the edge relation has a cycle. -/
theorem exists_cycle_of_closed (E : String → String → Prop) (R : List String)
    (hne : R ≠ []) (hclosed : ∀ n ∈ R, ∃ d ∈ R, E d n) :
    ∃ m, Relation.TransGen E m m := by
  by_contra hcon
  push_neg at hcon
  have hS : ({x : String | x ∈ R}).Finite := R.finite_toSet
  haveI : Finite ({x : String | x ∈ R}) := hS.to_subtype
  let r : ({x : String | x ∈ R}) → ({x : String | x ∈ R}) → Prop :=
    fun a b => Relation.TransGen E a.1 b.1
  haveI : IsTrans ({x : String | x ∈ R}) r := ⟨fun _ _ _ hab hbc => hab.trans hbc⟩
  haveI : IsIrrefl ({x : String | x ∈ R}) r := ⟨fun a h => hcon a.1 h⟩
  have hwf : WellFounded r := Finite.wellFounded_of_trans_of_irrefl r
  obtain ⟨n0, hn0⟩ := List.exists_mem_of_ne_nil R hne
  obtain ⟨m, -, hmin⟩ := hwf.has_min Set.univ ⟨⟨n0, hn0⟩, trivial⟩
  obtain ⟨d, hdR, hdE⟩ := hclosed m.1 m.2
  exact hmin ⟨d, hdR⟩ trivial (Relation.TransGen.single hdE)

/-- A duplicate-free list contained in another list is no longer than it. -/
theorem nodup_subset_length (l1 l2 : List String) (h1 : l1.Nodup)
    (hs : ∀ x ∈ l1, x ∈ l2) : l1.length ≤ l2.length := by
  have hc1 : l1.toFinset.card = l1.length := List.toFinset_card_of_nodup h1
  have hsubF : l1.toFinset ⊆ l2.toFinset := by
    intro x hx
    exact List.mem_toFinset.mpr (hs x (List.mem_toFinset.mp hx))
  have := Finset.card_le_card hsubF
  have := l2.toFinset_card_le
  omega

/-- Index of an element found among the first `k` entries of a
duplicate-free list. -/
theorem indexOf_lt_of_mem_take (l : List String) (hl : l.Nodup) (k : Nat)
    (d : String) (hd : d ∈ l.take k) : l.indexOf d < k := by
  obtain ⟨j, hj, hget⟩ := List.mem_iff_getElem.mp hd
  have hjk : j < k := by
    simp [List.length_take] at hj
    omega
  have hjl : j < l.length := by
    simp [List.length_take] at hj
    omega
  have heq : (l.take k)[j] = l[j] := List.getElem_take l
  rw [heq] at hget
  have := List.indexOf_getElem hl j hjl
  rw [hget] at this
  omega

/-- The run performed inside `_topological_order_subsection_ids` once the
self-cycle check has passed: the Kahn loop applied to the initial
in-degree function and sorted zero-in-degree queue, with fuel `|ids|`. -/
def topo_run (ids : List String) (dm : String → List String)
    (om : List (String × (Int × Int))) : List String × (String → Int) :=
  topo_loop (fun d => sortIds om (dependents ids dm d)) om ids.length
    (sortIds om (ids.filter (fun n => ((inSetDeps ids dm n).length : Int) = 0)))
    (fun n => ((inSetDeps ids dm n).length : Int)) []

/-- The invariants of `topo_loop_spec` instantiated at the initial state
built by `_topological_order_subsection_ids` when no direct self-cycle
exists. -/
theorem topo_run_spec (ids : List String) (dm : String → List String)
    (om : List (String × (Int × Int))) (hids : ids.Nodup) :
    ((∀ n, n ∈ (topo_run ids dm om).1 → n ∈ ids) ∧
     (topo_run ids dm om).1.Nodup ∧
     (∀ k, (hk : k < (topo_run ids dm om).1.length) →
       ∀ d ∈ inSetDeps ids dm ((topo_run ids dm om).1.get ⟨k, hk⟩),
         d ∈ (topo_run ids dm om).1.take k) ∧
     (∀ n ∈ ids, n ∉ (topo_run ids dm om).1 →
       (topo_run ids dm om).2 n = rCount ids dm (topo_run ids dm om).1 n ∧
       0 < (topo_run ids dm om).2 n)) := by
  unfold topo_run
  have hrc0 : ∀ n, rCount ids dm [] n = ((inSetDeps ids dm n).length : Int) := by
    intro n
    unfold rCount
    congr 1
    have hself : List.filter (fun d => !([] : List String).contains d)
        (inSetDeps ids dm n) = inSetDeps ids dm n :=
      List.filter_eq_self.mpr (fun d _ => by simp)
    rw [hself]
  apply topo_loop_spec ids dm om hids _ (fun d => rfl)
  · intro n hn
    simp only [List.nil_append, mem_sortIds] at hn
    exact (List.mem_filter.mp hn).1
  · simp only [List.nil_append]
    exact sortIds_nodup om _ (hids.filter _)
  · simp
  · intro n _ _
    rw [hrc0 n]
  · intro n hn d hd
    rw [mem_sortIds] at hn
    have h0 : ((inSetDeps ids dm n).length : Int) = 0 := by
      have := (List.mem_filter.mp hn).2
      simpa using this
    have : inSetDeps ids dm n = [] := by
      have : (inSetDeps ids dm n).length = 0 := by omega
      exact List.length_eq_zero.mp this
    rw [this] at hd
    cases hd
  · intro n hn _ hnr
    rw [mem_sortIds] at hnr
    have hne0 : ¬ ((inSetDeps ids dm n).length : Int) = 0 := by
      intro h
      exact hnr (List.mem_filter.mpr ⟨hn, by simpa using h⟩)
    have hpos : 0 < (inSetDeps ids dm n).length := by omega
    obtain ⟨d, hd⟩ := List.exists_mem_of_length_pos hpos
    exact ⟨d, hd, by simp⟩
  · intro k hk
    simp at hk

theorem topo_unfold_ok (ids : List String) (dm : String → List String)
    (om : List (String × (Int × Int))) (hne : ids ≠ [])
    (hfind : ids.find? (fun nid => (dm nid).contains nid) = none)
    (hlen : (topo_run ids dm om).1.length = ids.length) :
    topological_order_subsection_ids ids dm om = ((topo_run ids dm om).1, none) := by
  unfold topological_order_subsection_ids
  rw [if_neg (by simp [hne])]
  rw [hfind]
  show (if (topo_run ids dm om).1.length = ids.length
    then ((topo_run ids dm om).1, none) else _) = ((topo_run ids dm om).1, none)
  rw [if_pos hlen]

theorem topo_unfold_err (ids : List String) (dm : String → List String)
    (om : List (String × (Int × Int))) (hne : ids ≠ [])
    (hfind : ids.find? (fun nid => (dm nid).contains nid) = none)
    (hlen : (topo_run ids dm om).1.length ≠ ids.length) :
    topological_order_subsection_ids ids dm om =
      ([], some ("Circular subsection dependencies detected: " ++
        String.intercalate ", "
          (ids.filter (fun n => 0 < (topo_run ids dm om).2 n)))) := by
  unfold topological_order_subsection_ids
  rw [if_neg (by simp [hne])]
  rw [hfind]
  show (if (topo_run ids dm om).1.length = ids.length
    then ((topo_run ids dm om).1, none)
    else ([], some (toString "Circular subsection dependencies detected: " ++
      toString (String.intercalate ", "
        (ids.filter (fun n => 0 < (topo_run ids dm om).2 n))) ++ toString ""))) = _
  rw [if_neg hlen]
  show (([] : List String), some ("Circular subsection dependencies detected: " ++
      (String.intercalate ", "
        (ids.filter (fun n => 0 < (topo_run ids dm om).2 n))) ++ "")) = _
  simp

theorem topo_unfold_selferr (ids : List String) (dm : String → List String)
    (om : List (String × (Int × Int))) (hne : ids ≠ []) (nid0 : String)
    (hfind : ids.find? (fun nid => (dm nid).contains nid) = some nid0) :
    topological_order_subsection_ids ids dm om =
      ([], some ("Circular subsection dependency detected on subsection " ++ nid0)) := by
  unfold topological_order_subsection_ids
  rw [if_neg (by simp [hne])]
  rw [hfind]
  show (([] : List String), some (toString "Circular subsection dependency detected on subsection " ++
    toString nid0 ++ toString "")) = _
  show (([] : List String), some ("Circular subsection dependency detected on subsection " ++
    nid0 ++ "")) = _
  simp

/-- On a generation set with no direct self-cycle, whenever the Kahn run
outputs all the nodes, the output is a permutation of the input and every
non-self in-set edge goes from an earlier output index to a later one. -/
theorem topo_success_linearization (ids : List String)
    (dm : String → List String) (om : List (String × (Int × Int)))
    (hids : ids.Nodup)
    (hlen : (topo_run ids dm om).1.length = ids.length) :
    List.Perm (topo_run ids dm om).1 ids ∧
    (∀ d n, depEdge ids dm d n → d ≠ n →
      (topo_run ids dm om).1.indexOf d < (topo_run ids dm om).1.indexOf n) := by
  obtain ⟨P1, P2, P3, P4⟩ := topo_run_spec ids dm om hids
  have hperm : List.Perm (topo_run ids dm om).1 ids :=
    (List.subperm_of_subset P2 (fun x hx => P1 x hx)).perm_of_length_le (by omega)
  refine ⟨hperm, ?_⟩
  intro d n hdn hdneq
  obtain ⟨hdin, hnin, hdm⟩ := hdn
  have hd_inset : d ∈ inSetDeps ids dm n :=
    (mem_inSetDeps ids dm n d).mpr ⟨hdm, hdin, hdneq⟩
  have hnres : n ∈ (topo_run ids dm om).1 := hperm.mem_iff.mpr hnin
  obtain ⟨⟨k, hk⟩, hget⟩ := List.mem_iff_get.mp hnres
  have h3 := P3 k hk d (by rw [hget]; exact hd_inset)
  have hidxd : (topo_run ids dm om).1.indexOf d < k :=
    indexOf_lt_of_mem_take _ P2 k d h3
  have hidxn : (topo_run ids dm om).1.indexOf n = k := by
    have hh := List.indexOf_getElem P2 k hk
    rw [List.get_eq_getElem] at hget
    rw [hget] at hh
    exact hh
  omega

/-- C2: for every duplicate-free set of subsection ids with an acyclic
dependency map, the topological scheduler succeeds and returns an order
containing each input id exactly once in which, for every edge
(dependency, dependent) with both endpoints in the input set, the
dependency's index precedes the dependent's index. -/
theorem claim_C2_topological_linearization (ids : List String)
    (dm : String → List String) (om : List (String × (Int × Int)))
    (hids : ids.Nodup)
    (hacyc : ¬ ∃ m, Relation.TransGen (depEdge ids dm) m m) :
    ∃ order : List String,
      topological_order_subsection_ids ids dm om = (order, none) ∧
      List.Perm order ids ∧
      ∀ d n, depEdge ids dm d n → order.indexOf d < order.indexOf n := by
  by_cases hemp : ids = []
  · subst hemp
    refine ⟨[], rfl, List.Perm.refl _, ?_⟩
    intro d n hdn
    exact absurd hdn.1 (by simp)
  · have hself : ∀ nid ∈ ids, nid ∉ dm nid := by
      intro nid hnid hmem
      exact hacyc ⟨nid, Relation.TransGen.single ⟨hnid, hnid, hmem⟩⟩
    have hfind : ids.find? (fun nid => (dm nid).contains nid) = none :=
      List.find?_eq_none.mpr (fun x hx => by simpa using hself x hx)
    obtain ⟨P1, P2, P3, P4⟩ := topo_run_spec ids dm om hids
    have hlen : (topo_run ids dm om).1.length = ids.length := by
      by_contra hne2
      have hle : (topo_run ids dm om).1.length ≤ ids.length :=
        nodup_subset_length _ _ P2 P1
      have hmiss : ∃ n0, n0 ∈ ids ∧ n0 ∉ (topo_run ids dm om).1 := by
        by_contra hall
        push_neg at hall
        have := nodup_subset_length ids (topo_run ids dm om).1 hids hall
        omega
      obtain ⟨n0, hn0, hn0m⟩ := hmiss
      have hclosed : ∀ n ∈ ids.filter (fun n => !((topo_run ids dm om).1.contains n)),
          ∃ d ∈ ids.filter (fun n => !((topo_run ids dm om).1.contains n)),
            depEdge ids dm d n := by
        intro n hn
        obtain ⟨hn1, hn2⟩ := List.mem_filter.mp hn
        have hn2b : n ∉ (topo_run ids dm om).1 := by simpa using hn2
        obtain ⟨heq, hpos⟩ := P4 n hn1 hn2b
        rw [heq] at hpos
        obtain ⟨d, hd1, hd2⟩ := (rCount_pos_iff ids dm _ n).mp hpos
        obtain ⟨hdm, hdin, -⟩ := (mem_inSetDeps ids dm n d).mp hd1
        exact ⟨d, List.mem_filter.mpr ⟨hdin, by simpa using hd2⟩, hdin, hn1, hdm⟩
      have hne3 : ids.filter (fun n => !((topo_run ids dm om).1.contains n)) ≠ [] := by
        intro h
        have hmem : n0 ∈ ids.filter (fun n => !((topo_run ids dm om).1.contains n)) :=
          List.mem_filter.mpr ⟨hn0, by simpa using hn0m⟩
        rw [h] at hmem
        cases hmem
      obtain ⟨m, hm⟩ := exists_cycle_of_closed (depEdge ids dm) _ hne3 hclosed
      exact hacyc ⟨m, hm⟩
    obtain ⟨hperm, hedges⟩ := topo_success_linearization ids dm om hids hlen
    refine ⟨(topo_run ids dm om).1, topo_unfold_ok ids dm om hemp hfind hlen,
      hperm, ?_⟩
    intro d n hdn
    have hdneq : d ≠ n := by
      intro h
      exact hacyc ⟨n, Relation.TransGen.single (h ▸ hdn)⟩
    exact hedges d n hdn hdneq

/-- Witness for C2: two subsections where B depends on A are scheduled as
A then B with no error. -/
theorem claim_C2_witness :
    ["A", "B"].Nodup ∧
    (¬ ∃ m, Relation.TransGen
      (depEdge ["A", "B"] (fun n => if n = "B" then ["A"] else [])) m m) ∧
    (∃ order : List String,
      topological_order_subsection_ids ["A", "B"]
        (fun n => if n = "B" then ["A"] else [])
        [("A", (1, 1)), ("B", (1, 2))] = (order, none) ∧
      List.Perm order ["A", "B"] ∧
      ∀ d n, depEdge ["A", "B"] (fun n => if n = "B" then ["A"] else []) d n →
        order.indexOf d < order.indexOf n) := by
  have hE : ∀ a b, depEdge ["A", "B"] (fun n => if n = "B" then ["A"] else []) a b →
      a = "A" ∧ b = "B" := by
    rintro a b ⟨ha, hb, hd⟩
    fin_cases hb
    · simp at hd
    · simp at hd
      exact ⟨hd, rfl⟩
  have hacyc : ¬ ∃ m, Relation.TransGen
      (depEdge ["A", "B"] (fun n => if n = "B" then ["A"] else [])) m m := by
    rintro ⟨m, hm⟩
    have hTG : ∀ a b, Relation.TransGen
        (depEdge ["A", "B"] (fun n => if n = "B" then ["A"] else [])) a b →
        a = "A" ∧ b = "B" := by
      intro a b h
      induction h with
      | single h => exact hE _ _ h
      | tail h e ih =>
        obtain ⟨hb1, -⟩ := hE _ _ e
        obtain ⟨-, hb2⟩ := ih
        rw [hb2] at hb1
        exact absurd hb1 (by decide)
    obtain ⟨h1, h2⟩ := hTG m m hm
    rw [h1] at h2
    exact absurd h2 (by decide)
  exact ⟨by decide, hacyc,
    claim_C2_topological_linearization ["A", "B"]
      (fun n => if n = "B" then ["A"] else [])
      [("A", (1, 1)), ("B", (1, 2))] (by decide) hacyc⟩

/-- C3: for every duplicate-free set of subsection ids whose dependency
map has a cycle inside the set, the scheduler returns a
circular-dependency error naming offending node(s) of the set, together
with an empty order — never a partial order. -/
theorem claim_C3_cycle_rejected (ids : List String)
    (dm : String → List String) (om : List (String × (Int × Int)))
    (hids : ids.Nodup)
    (hcyc : ∃ m, Relation.TransGen (depEdge ids dm) m m) :
    ∃ msg, topological_order_subsection_ids ids dm om = ([], some msg) ∧
      ((∃ nid, nid ∈ ids ∧ nid ∈ dm nid ∧
        msg = "Circular subsection dependency detected on subsection " ++ nid) ∨
       (∃ cyc : List String, cyc ≠ [] ∧ (∀ x ∈ cyc, x ∈ ids) ∧
        msg = "Circular subsection dependencies detected: " ++
          String.intercalate ", " cyc)) := by
  have hne : ids ≠ [] := by
    obtain ⟨m, hm⟩ := hcyc
    have hedge : ∃ a b, depEdge ids dm a b := by
      cases hm with
      | single h => exact ⟨_, _, h⟩
      | tail _ e => exact ⟨_, _, e⟩
    obtain ⟨a, b, ha, -, -⟩ := hedge
    intro h
    rw [h] at ha
    cases ha
  by_cases hsd : ∃ nid, nid ∈ ids ∧ nid ∈ dm nid
  · obtain ⟨nid, hnid, hmem⟩ := hsd
    have hsome : (ids.find? (fun nid => (dm nid).contains nid)).isSome :=
      List.find?_isSome.mpr ⟨nid, hnid, by simpa using hmem⟩
    obtain ⟨nid0, hfind⟩ := Option.isSome_iff_exists.mp hsome
    have hp0 : nid0 ∈ dm nid0 := by
      have := List.find?_some hfind
      simpa using this
    have hm0 : nid0 ∈ ids := List.mem_of_find?_eq_some hfind
    exact ⟨_, topo_unfold_selferr ids dm om hne nid0 hfind,
      Or.inl ⟨nid0, hm0, hp0, rfl⟩⟩
  · push_neg at hsd
    have hfind : ids.find? (fun nid => (dm nid).contains nid) = none :=
      List.find?_eq_none.mpr (fun x hx => by simpa using hsd x hx)
    obtain ⟨P1, P2, P3, P4⟩ := topo_run_spec ids dm om hids
    have hlen : (topo_run ids dm om).1.length ≠ ids.length := by
      intro hlen
      obtain ⟨-, hedges⟩ := topo_success_linearization ids dm om hids hlen
      have hTG : ∀ a b, Relation.TransGen (depEdge ids dm) a b →
          (topo_run ids dm om).1.indexOf a < (topo_run ids dm om).1.indexOf b := by
        intro a b h
        induction h with
        | single h =>
          exact hedges _ _ h (fun hab => hsd _ (hab ▸ h.1) (hab ▸ h.2.2))
        | tail _ e ih =>
          have := hedges _ _ e (fun hab => hsd _ (hab ▸ e.1) (hab ▸ e.2.2))
          omega
      obtain ⟨m, hm⟩ := hcyc
      have := hTG m m hm
      omega
    have hlt : (topo_run ids dm om).1.length < ids.length := by
      have := nodup_subset_length _ _ P2 P1
      omega
    have hmiss : ∃ n0, n0 ∈ ids ∧ n0 ∉ (topo_run ids dm om).1 := by
      by_contra hall
      push_neg at hall
      have := nodup_subset_length ids (topo_run ids dm om).1 hids hall
      omega
    obtain ⟨n0, hn0, hn0m⟩ := hmiss
    refine ⟨_, topo_unfold_err ids dm om hne hfind hlen, Or.inr
      ⟨ids.filter (fun n => 0 < (topo_run ids dm om).2 n), ?_, ?_, rfl⟩⟩
    · intro h
      have hp : 0 < (topo_run ids dm om).2 n0 := (P4 n0 hn0 hn0m).2
      have hmem : n0 ∈ ids.filter (fun n => 0 < (topo_run ids dm om).2 n) :=
        List.mem_filter.mpr ⟨hn0, by simpa using hp⟩
      rw [h] at hmem
      cases hmem
    · intro x hx
      exact (List.mem_filter.mp hx).1

/-- Witness for C3: the two-cycle A depends on B, B depends on A is
rejected with an error and an empty order. -/
theorem claim_C3_witness :
    ∃ msg, topological_order_subsection_ids ["A", "B"]
        (fun n => if n = "A" then ["B"] else ["A"])
        [("A", (1, 1)), ("B", (1, 2))] = ([], some msg) ∧
      ((∃ nid, nid ∈ ["A", "B"] ∧
        nid ∈ (if nid = "A" then ["B"] else ["A"]) ∧
        msg = "Circular subsection dependency detected on subsection " ++ nid) ∨
       (∃ cyc : List String, cyc ≠ [] ∧ (∀ x ∈ cyc, x ∈ ["A", "B"]) ∧
        msg = "Circular subsection dependencies detected: " ++
          String.intercalate ", " cyc)) := by
  apply claim_C3_cycle_rejected ["A", "B"]
    (fun n => if n = "A" then ["B"] else ["A"])
    [("A", (1, 1)), ("B", (1, 2))] (by decide)
  refine ⟨"A", @Relation.TransGen.head String
    (depEdge ["A", "B"] (fun n => if n = "A" then ["B"] else ["A"]))
    "A" "B" "A" ⟨by decide, by decide, by decide⟩
    (Relation.TransGen.single ⟨by decide, by decide, by decide⟩)⟩

instance (om : List (String × (Int × Int))) : IsTotal String (idLe om) :=
  ⟨fun _ _ => keyLe_total _ _⟩

instance (om : List (String × (Int × Int))) : IsTrans String (idLe om) :=
  ⟨fun _ _ _ => keyLe_trans _ _ _⟩

/-- When every ready node has an empty adjacency list, the loop just
drains the sorted queue in order. -/
theorem topo_loop_no_adj (adj : String → List String)
    (om : List (String × (Int × Int))) :
    ∀ (fuel : Nat) (ready : List String) (ind : String → Int)
      (ordered : List String),
    (∀ d ∈ ready, adj d = []) → List.Sorted (idLe om) ready →
    ready.length ≤ fuel →
    topo_loop adj om fuel ready ind ordered = (ordered ++ ready, ind) := by
  intro fuel
  induction fuel with
  | zero =>
    intro ready ind ordered hadj hsort hlen
    have hnil : ready = [] := List.length_eq_zero.mp (by omega)
    subst hnil
    simp [topo_loop]
  | succ fuel ih =>
    intro ready ind ordered hadj hsort hlen
    match ready with
    | [] => simp [topo_loop]
    | c :: rest =>
      have hc : adj c = [] := hadj c (by simp)
      have hstep : topo_loop adj om (fuel + 1) (c :: rest) ind ordered =
          topo_loop adj om fuel
            (sortIds om (rest ++ (decrement_all (adj c) ind).2))
            (decrement_all (adj c) ind).1 (ordered ++ [c]) := rfl
      rw [hstep, hc]
      show topo_loop adj om fuel (sortIds om (rest ++ [])) ind (ordered ++ [c]) = _
      rw [List.append_nil]
      have hsorted_rest : List.Sorted (idLe om) rest := hsort.of_cons
      rw [show sortIds om rest = rest from hsorted_rest.insertionSort_eq]
      rw [ih rest ind (ordered ++ [c]) (fun d hd => hadj d (by simp [hd]))
        hsorted_rest (by simp at hlen; omega)]
      simp

/-- C6 counterexample: in the batch X, Y, Z with keys (1,1), (1,2), (1,3)
and the single dependency X depends on Z, the pair X, Y has no dependency
relation in either direction (not even transitively) and X's key precedes
Y's key, yet the scheduler outputs Y before X — so dependency-unrelated
pairs are not always ordered by `(section_position, subsection_position,
id)`. -/
theorem claim_C6_counterexample :
    (¬ Relation.TransGen
      (depEdge ["X", "Y", "Z"] (fun n => if n = "X" then ["Z"] else []))
      "X" "Y") ∧
    (¬ Relation.TransGen
      (depEdge ["X", "Y", "Z"] (fun n => if n = "X" then ["Z"] else []))
      "Y" "X") ∧
    keyLe (sort_key [("X", (1, 1)), ("Y", (1, 2)), ("Z", (1, 3))] "X")
      (sort_key [("X", (1, 1)), ("Y", (1, 2)), ("Z", (1, 3))] "Y") ∧
    ¬ keyLe (sort_key [("X", (1, 1)), ("Y", (1, 2)), ("Z", (1, 3))] "Y")
      (sort_key [("X", (1, 1)), ("Y", (1, 2)), ("Z", (1, 3))] "X") ∧
    topological_order_subsection_ids ["X", "Y", "Z"]
      (fun n => if n = "X" then ["Z"] else [])
      [("X", (1, 1)), ("Y", (1, 2)), ("Z", (1, 3))] = (["Y", "Z", "X"], none) ∧
    ["Y", "Z", "X"].indexOf "Y" < ["Y", "Z", "X"].indexOf "X" := by
  have hE : ∀ a b,
      depEdge ["X", "Y", "Z"] (fun n => if n = "X" then ["Z"] else []) a b →
      a = "Z" ∧ b = "X" := by
    rintro a b ⟨ha, hb, hd⟩
    fin_cases hb
    · simp at hd
      exact ⟨hd, rfl⟩
    · simp at hd
    · simp at hd
  have hTG : ∀ a b, Relation.TransGen
      (depEdge ["X", "Y", "Z"] (fun n => if n = "X" then ["Z"] else [])) a b →
      a = "Z" ∧ b = "X" := by
    intro a b h
    induction h with
    | single h => exact hE _ _ h
    | tail _ e ih => exact ⟨ih.1, (hE _ _ e).2⟩
  refine ⟨?_, ?_, by decide, by decide, by decide, by decide⟩
  · intro h
    exact absurd (hTG _ _ h).2 (by decide)
  · intro h
    exact absurd (hTG _ _ h).1 (by decide)

/-- C6 (amended): when the dependency map induces no edge at all between
members of the generation set, the scheduler succeeds and returns exactly
the input sorted by `(section_position, subsection_position, id)` —
natural document order; in particular a subsection with key (1,2)
precedes one with key (2,1). -/
theorem claim_C6_natural_order (ids : List String)
    (dm : String → List String) (om : List (String × (Int × Int)))
    (hids : ids.Nodup)
    (hnoedge : ∀ d n, ¬ depEdge ids dm d n) :
    topological_order_subsection_ids ids dm om = (sortIds om ids, none) := by
  by_cases hemp : ids = []
  · subst hemp
    rfl
  · have hfind : ids.find? (fun nid => (dm nid).contains nid) = none := by
      apply List.find?_eq_none.mpr
      intro x hx hmem
      exact hnoedge x x ⟨hx, hx, by simpa using hmem⟩
    have hdeps : ∀ n ∈ ids, inSetDeps ids dm n = [] := by
      intro n hn
      rw [List.eq_nil_iff_forall_not_mem]
      intro d hd
      obtain ⟨h1, h2, _⟩ := (mem_inSetDeps ids dm n d).mp hd
      exact hnoedge d n ⟨h2, hn, h1⟩
    have hfilter : ids.filter
        (fun n => ((inSetDeps ids dm n).length : Int) = 0) = ids :=
      List.filter_eq_self.mpr (fun n hn => by simp [hdeps n hn])
    have hdepend : ∀ d ∈ ids, dependents ids dm d = [] := by
      intro d hd
      rw [List.eq_nil_iff_forall_not_mem]
      intro n hn
      obtain ⟨h1, h2, _⟩ := (mem_dependents ids dm d n).mp hn
      exact hnoedge d n ⟨hd, h1, h2⟩
    have hrun : topo_run ids dm om =
        (sortIds om ids, fun n => ((inSetDeps ids dm n).length : Int)) := by
      unfold topo_run
      rw [hfilter]
      rw [topo_loop_no_adj _ om ids.length (sortIds om ids) _ []
        (fun d hd => by
          rw [show dependents ids dm d = [] from
            hdepend d ((mem_sortIds om ids d).mp hd)]
          rfl)
        (List.sorted_insertionSort _ _)
        (le_of_eq (sortIds_perm om ids).length_eq)]
      simp
    have hlen : (topo_run ids dm om).1.length = ids.length := by
      rw [hrun]
      exact (sortIds_perm om ids).length_eq
    rw [topo_unfold_ok ids dm om hemp hfind hlen, hrun]

/-- Witness for the amended C6: two dependency-free subsections with keys
(2,1) and (1,2) are ordered (1,2) first — natural document order. -/
theorem claim_C6_witness :
    topological_order_subsection_ids ["A", "B"] (fun _ => [])
      [("A", (2, 1)), ("B", (1, 2))] =
      (sortIds [("A", (2, 1)), ("B", (1, 2))] ["A", "B"], none) ∧
    sortIds [("A", (2, 1)), ("B", (1, 2))] ["A", "B"] = ["B", "A"] := by
  constructor
  · apply claim_C6_natural_order ["A", "B"] (fun _ => [])
      [("A", (2, 1)), ("B", (1, 2))] (by decide)
    rintro d n ⟨-, -, h⟩
    cases h
  · decide

/-! ## Prior-context building (`_build_prior_context`,
`_build_dependency_context_from_ids`, pipeline.py:997-1070).

A `ContextEntry` is the dict built by `_build_generation_context_entry`
with keys `section`, `subsection`, `content_summary`, `subsection_id`.
`_load_subsection_context_entry` reads persisted storage, so it is an
oracle parameter; the `cached_subsection_context` dict memoizes that
deterministic oracle within one call and is therefore not modelled
separately. -/

structure ContextEntry where
  sectionTitle : String
  subsectionTitle : String
  content_summary : String
  subsection_id : Option String
deriving DecidableEq, Repr

/-- The two lines appended per window item (pipeline.py:1004-1006). -/
def contextBlock (item : ContextEntry) : List String :=
  ["\n### " ++ item.sectionTitle ++ " - " ++ item.subsectionTitle,
    item.content_summary]

/-- Embedding of `_build_prior_context` (pipeline.py:997-1008).  The
Python slice `generated[-max_items:]` keeps the last `max_items` entries
in their original (generation) order. -/
def build_prior_context (generated : List ContextEntry) (max_items : Int) :
    String :=
  if generated.isEmpty then ""
  else
    let window := if 0 < max_items then
      generated.drop (generated.length - max_items.toNat) else generated
    String.intercalate "\n"
      ("## Previously Generated Content (for coherence)" ::
        (window.map contextBlock).join)

/-- Embedding of `_build_dependency_context_from_ids`
(pipeline.py:1046-1070): per declared dependency, take the freshly
generated entry when present, else the persisted entry from the loader;
drop the dependencies with no entry. -/
def build_dependency_context_from_ids (dependency_subsection_ids : List String)
    (generated_context_by_subsection_id : List (String × ContextEntry))
    (load_subsection_context_entry : String → Option ContextEntry) : String :=
  if dependency_subsection_ids.isEmpty then ""
  else
    let dependency_entries := dependency_subsection_ids.filterMap (fun did =>
      match (generated_context_by_subsection_id.find?
          (fun kv => kv.1 = did)).map (fun kv => kv.2) with
      | some e => some e
      | none => load_subsection_context_entry did)
    if dependency_entries.isEmpty then ""
    else build_prior_context dependency_entries (dependency_entries.length : Int)

/-- The call-site combination (pipeline.py:915-920 and 673-678):
`prior_context = dependency_context or _build_prior_context(...)` — the
dependency context is used when non-empty, else the recency window. -/
def prior_context_for (dependency_subsection_ids : List String)
    (generated_context_by_subsection_id : List (String × ContextEntry))
    (load_subsection_context_entry : String → Option ContextEntry)
    (generated_context : List ContextEntry) : String :=
  let dependency_context := build_dependency_context_from_ids
    dependency_subsection_ids generated_context_by_subsection_id
    load_subsection_context_entry
  if dependency_context = "" then build_prior_context generated_context 5
  else dependency_context

theorem intercalate_go_length : ∀ (l : List String) (acc s : String),
    acc.length ≤ (String.intercalate.go acc s l).length := by
  intro l
  induction l with
  | nil =>
    intro acc s
    simp [String.intercalate.go]
  | cons a as ih =>
    intro acc s
    have h1 := ih (acc ++ s ++ a) s
    have h2 : acc.length ≤ (acc ++ s ++ a).length := by
      simp [String.length_append]
      omega
    simp only [String.intercalate.go]
    omega

theorem intercalate_cons_ne_empty (h : String) (l : List String)
    (hh : 0 < h.length) : String.intercalate "\n" (h :: l) ≠ "" := by
  intro hcon
  have h1 : h.length ≤ (String.intercalate "\n" (h :: l)).length := by
    simp only [String.intercalate]
    exact intercalate_go_length l h "\n"
  rw [hcon] at h1
  have h0 : ("" : String).length = 0 := rfl
  rw [h0] at h1
  omega

/-- C4 counterexample: (1) with two generated entries the block lists the
older entry first — the window is in generation order, not most-recent
first; (2) a subsection that declares a dependency with no obtainable
entry falls back to the generic recency window instead of an
empty/restricted context. -/
theorem claim_C4_counterexample :
    build_prior_context
      [⟨"S1", "A", "alpha", some "a"⟩, ⟨"S2", "B", "beta", some "b"⟩] 5 =
      "## Previously Generated Content (for coherence)\n\n### S1 - A\nalpha\n\n### S2 - B\nbeta" ∧
    build_prior_context
      [⟨"S1", "A", "alpha", some "a"⟩, ⟨"S2", "B", "beta", some "b"⟩] 5 ≠
      "## Previously Generated Content (for coherence)\n\n### S2 - B\nbeta\n\n### S1 - A\nalpha" ∧
    prior_context_for ["missing"] [] (fun _ => none)
      [⟨"S1", "A", "alpha", some "a"⟩] =
      build_prior_context [⟨"S1", "A", "alpha", some "a"⟩] 5 ∧
    prior_context_for ["missing"] [] (fun _ => none)
      [⟨"S1", "A", "alpha", some "a"⟩] ≠ "" := by
  refine ⟨by decide, by decide, by decide, by decide⟩

/-- C4 (amended): with no declared dependencies the prompt context is the
recency window — at most the 5 most recently generated entries, a suffix
of the generation sequence listed in generation order (most recent last);
with declared dependencies, if at least one declared dependency yields an
entry the context is exactly those dependencies' entries (fresh entries
first preferred over persisted ones, in dependency order), and if none
yields an entry the generic recency window is used instead. -/
theorem claim_C4_prior_context (generated : List ContextEntry)
    (hne : generated ≠ []) (deps : List String)
    (gm : List (String × ContextEntry))
    (loader : String → Option ContextEntry) :
    (prior_context_for [] gm loader generated =
      build_prior_context generated 5) ∧
    (build_prior_context generated 5 =
      String.intercalate "\n"
        ("## Previously Generated Content (for coherence)" ::
          ((generated.drop (generated.length - 5)).map contextBlock).join) ∧
      (generated.drop (generated.length - 5)).length ≤ 5 ∧
      (generated.drop (generated.length - 5)) <:+ generated ∧
      (generated.length ≤ 5 → generated.drop (generated.length - 5) = generated)) ∧
    (deps ≠ [] →
      (deps.filterMap (fun did =>
        match (gm.find? (fun kv => kv.1 = did)).map (fun kv => kv.2) with
        | some e => some e
        | none => loader did)) ≠ [] →
      prior_context_for deps gm loader generated =
        String.intercalate "\n"
          ("## Previously Generated Content (for coherence)" ::
            ((deps.filterMap (fun did =>
              match (gm.find? (fun kv => kv.1 = did)).map (fun kv => kv.2) with
              | some e => some e
              | none => loader did)).map contextBlock).join)) ∧
    (deps ≠ [] →
      (deps.filterMap (fun did =>
        match (gm.find? (fun kv => kv.1 = did)).map (fun kv => kv.2) with
        | some e => some e
        | none => loader did)) = [] →
      prior_context_for deps gm loader generated =
        build_prior_context generated 5) := by
  have hwin : build_prior_context generated 5 =
      String.intercalate "\n"
        ("## Previously Generated Content (for coherence)" ::
          ((generated.drop (generated.length - 5)).map contextBlock).join) := by
    unfold build_prior_context
    rw [if_neg (by simpa using hne)]
    rw [if_pos (by norm_num)]
    rfl
  refine ⟨rfl, ⟨hwin, ?_, List.drop_suffix _ _, ?_⟩, ?_, ?_⟩
  · rw [List.length_drop]
    omega
  · intro hle
    have : generated.length - 5 = 0 := by omega
    rw [this, List.drop_zero]
  · intro hdne hene
    unfold prior_context_for
    have hdc : build_dependency_context_from_ids deps gm loader =
        String.intercalate "\n"
          ("## Previously Generated Content (for coherence)" ::
            ((deps.filterMap (fun did =>
              match (gm.find? (fun kv => kv.1 = did)).map (fun kv => kv.2) with
              | some e => some e
              | none => loader did)).map contextBlock).join) := by
      unfold build_dependency_context_from_ids
      rw [if_neg (by simpa using hdne)]
      rw [if_neg (by simpa using hene)]
      unfold build_prior_context
      rw [if_neg (by simpa using hene)]
      rw [if_pos (by
        have h0 : (deps.filterMap (fun did =>
          match (gm.find? (fun kv => kv.1 = did)).map (fun kv => kv.2) with
          | some e => some e
          | none => loader did)).length ≠ 0 := by
          simpa [List.length_eq_zero] using hene
        omega)]
      have hdr : (deps.filterMap (fun did =>
          match (gm.find? (fun kv => kv.1 = did)).map (fun kv => kv.2) with
          | some e => some e
          | none => loader did)).drop
          ((deps.filterMap (fun did =>
            match (gm.find? (fun kv => kv.1 = did)).map (fun kv => kv.2) with
            | some e => some e
            | none => loader did)).length -
           ((deps.filterMap (fun did =>
             match (gm.find? (fun kv => kv.1 = did)).map (fun kv => kv.2) with
             | some e => some e
             | none => loader did)).length : Int).toNat) =
          deps.filterMap (fun did =>
            match (gm.find? (fun kv => kv.1 = did)).map (fun kv => kv.2) with
            | some e => some e
            | none => loader did) := by
        simp
      rw [hdr]
    rw [hdc]
    rw [if_neg (intercalate_cons_ne_empty _ _ (by decide))]
  · intro hdne hee
    unfold prior_context_for
    have hdc : build_dependency_context_from_ids deps gm loader = "" := by
      unfold build_dependency_context_from_ids
      rw [if_neg (by simpa using hdne)]
      rw [if_pos (by simpa using hee)]
    rw [hdc]
    rw [if_pos rfl]

/-- Witness for the amended C4: one declared dependency with a freshly
generated entry makes the context exactly that entry's block. -/
theorem claim_C4_witness :
    prior_context_for ["d"] [("d", ⟨"S2", "B", "beta", some "b"⟩)]
      (fun _ => none) [⟨"S1", "A", "alpha", some "a"⟩] =
      "## Previously Generated Content (for coherence)\n\n### S2 - B\nbeta" := by
  have h := (claim_C4_prior_context [⟨"S1", "A", "alpha", some "a"⟩]
    (by simp) ["d"] [("d", ⟨"S2", "B", "beta", some "b"⟩)]
    (fun _ => none)).2.2.1 (by simp) (by decide)
  rw [h]
  decide

/-! ## Chart Payload Builder (`_build_chart_payload_for_input`,
pipeline.py:1245-1470), financials source.

Retriever result rows are dicts; a row that is not a dict or carries a
truthy `error` is skipped, modelled by `isError`.  `bank_id` and `period`
are stored after `str(...)`.  A metric entry models the dict keys `id`,
`name`, `value`, `formatted`; `_to_float` conversions are pre-applied, so
`value`/`formatted` hold `some` of the (integer-modelled) numeric value
when conversion succeeds and `none` otherwise.  The derived `insights`
list (presentational text produced with float formatting) and the
constant `kind`/`schema_version` fields are outside the embedding, as is
the `stock_prices` branch, which no claim touches. -/

structure FinMetric where
  mid : Option String
  mname : Option String
  value : Option Int
  formatted : Option Int
deriving DecidableEq, Repr

structure FinRow where
  isError : Bool
  bank_id : String
  period : String
  metrics : List FinMetric
deriving DecidableEq, Repr

structure ChartSeries where
  name : String
  points : List (String × Int)
deriving DecidableEq, Repr

structure ChartDoc where
  title : String
  chart_type : String
  x_label : String
  y_label : String
  series : List ChartSeries
  source_id : String
  method_id : String
deriving DecidableEq, Repr

/-- The normalized `visualization` sub-object (fields absent or
non-empty). -/
structure VizConfig where
  chart_type : Option String
  title : Option String
  x_key : Option String
  y_key : Option String
  series_key : Option String
  metric_id : Option String
deriving DecidableEq, Repr

/-- Python `a or b` over an optional string, where `""` is falsy. -/
def pyOrS (v : Option String) (d : String) : String :=
  match v with
  | some s => if s = "" then d else s
  | none => d

/-- Embedding of `_period_sort_key` (pipeline.py:1128-1142). -/
def period_sort_key (period_label : String) : Int × Int × String :=
  let pieces := ((pyStrip period_label).split (fun c => c.isWhitespace)).filter
    (fun s => ¬ s = "")
  match pieces with
  | [year_raw, quarter_raw] =>
    match year_raw.toInt? with
    | none => (0, 0, period_label)
    | some year =>
      let quarter : Int :=
        if pyToUpper quarter_raw = "Q1" then 1
        else if pyToUpper quarter_raw = "Q2" then 2
        else if pyToUpper quarter_raw = "Q3" then 3
        else if pyToUpper quarter_raw = "Q4" then 4
        else 0
      (year, quarter, period_label)
  | _ => (0, 0, period_label)

/-- The inner loop of the grouped multi-metric branch
(pipeline.py:1336-1366): walk the result rows carrying the running
`series_name` and `points` exactly as the Python `for` loop does. -/
def buildSeriesForMetric (cid : String) :
    List FinRow → String → List (String × Int) → String × List (String × Int)
  | [], name, pts => (name, pts)
  | result :: rest, name, pts =>
    if result.isError then buildSeriesForMetric cid rest name pts
    else
      match result.metrics.find? (fun m => m.mid = some cid) with
      | none => buildSeriesForMetric cid rest name pts
      | some mm =>
        let name2 := pyOrS mm.mname cid
        match (match mm.value with
               | some v => some v
               | none => mm.formatted) with
        | none => buildSeriesForMetric cid rest name2 pts
        | some v => buildSeriesForMetric cid rest name2 (pts ++ [(result.bank_id, v)])

/-- The grouped multi-series construction (pipeline.py:1333-1366): one
candidate series per configured metric id, kept only when it gathered at
least one point. -/
def buildGroupedSeries (metric_ids : List String) (results : List FinRow) :
    List ChartSeries :=
  metric_ids.filterMap (fun cid =>
    let r := buildSeriesForMetric cid results cid []
    if r.2.isEmpty then none else some ⟨r.1, r.2⟩)

/-- Appending a period point to the per-bank map
(`per_bank_points.setdefault(bank, []).append(...)`,
pipeline.py:1419). -/
def upsertPoint (m : List (String × List (String × Int))) (bank : String)
    (pt : String × Int) : List (String × List (String × Int)) :=
  if m.any (fun kv => kv.1 = bank) then
    m.map (fun kv => if kv.1 = bank then (kv.1, kv.2 ++ [pt]) else kv)
  else m ++ [(bank, [pt])]

/-- The single-metric accumulation loop (pipeline.py:1389-1420), carrying
`(per_bank_points, singleton_points, metric_name)`. -/
def singleMetricLoop (selected_metric_id : Option String) :
    List FinRow → List (String × List (String × Int)) → List (String × Int) →
    String →
    List (String × List (String × Int)) × List (String × Int) × String
  | [], pb, sp, mn => (pb, sp, mn)
  | r :: rest, pb, sp, mn =>
    if r.isError then singleMetricLoop selected_metric_id rest pb sp mn
    else
      let selected : Option FinMetric :=
        match selected_metric_id with
        | some sid =>
          match r.metrics.find? (fun m => m.mid = some sid) with
          | some mm => some mm
          | none => r.metrics.head?
        | none => r.metrics.head?
      match selected with
      | none => singleMetricLoop selected_metric_id rest pb sp mn
      | some sel =>
        let mn2 := pyOrS sel.mname (pyOrS sel.mid mn)
        match (match sel.value with
               | some v => some v
               | none => sel.formatted) with
        | none => singleMetricLoop selected_metric_id rest pb sp mn2
        | some y => singleMetricLoop selected_metric_id rest
            (upsertPoint pb r.bank_id (r.period, y)) (sp ++ [(r.bank_id, y)]) mn2

/-- The single-target-metric continuation of the financials branch
(pipeline.py:1385-1468). -/
def financials_single_metric (metric_ids : List String)
    (metric_id : Option String) (viz : Option VizConfig)
    (chart_title : String) (method_id : String) (results : List FinRow) :
    Option ChartDoc :=
  let selected_metric_id :=
    match metric_id with
    | some m => some m
    | none => metric_ids.head?
  let state := singleMetricLoop selected_metric_id results [] []
    (pyOrS selected_metric_id "metric")
  if state.1.isEmpty then none
  else
    let unique_periods := (((state.1.map (fun kv => kv.2)).join).map
      (fun pt => pt.1)).dedup
    if unique_periods.length = 1 ∧ 1 < state.2.1.length then
      some {
        title := chart_title,
        chart_type := pyOrS (viz.bind VizConfig.chart_type) "bar",
        x_label := "Bank",
        y_label := state.2.2,
        series := [⟨state.2.2, state.2.1⟩],
        source_id := "financials",
        method_id := method_id }
    else
      some {
        title := chart_title,
        chart_type := pyOrS (viz.bind VizConfig.chart_type) "line",
        x_label := "Period",
        y_label := state.2.2,
        series := state.1.map (fun kv =>
          ⟨kv.1, List.insertionSort
            (fun p q => keyLe (period_sort_key p.1) (period_sort_key q.1))
            kv.2⟩),
        source_id := "financials",
        method_id := method_id }

/-- Embedding of `_build_chart_payload_for_input` (pipeline.py:1245-1470)
for the financials source: `metric_ids` is the string content of
`parameters["metrics"]` (non-string entries are skipped by the source and
not modelled), `viz` the normalized visualization config. -/
def build_chart_payload_for_input (source_id : String) (method_id : String)
    (metric_ids : List String) (viz : Option VizConfig)
    (section_title : String) (subsection_title : Option String)
    (results : List FinRow) : Option ChartDoc :=
  if results.isEmpty then none
  else
    let chart_title := pyOrS (viz.bind VizConfig.title)
      (pyOrS subsection_title (section_title ++ " chart"))
    let metric_id := viz.bind VizConfig.metric_id
    if source_id = "financials" then
      if metric_id = none ∧ 1 < metric_ids.length then
        let grouped_series := buildGroupedSeries metric_ids results
        if ¬ grouped_series.isEmpty then
          some {
            title := chart_title,
            chart_type := pyOrS (viz.bind VizConfig.chart_type) "bar",
            x_label := "Bank",
            y_label := "Value",
            series := grouped_series,
            source_id := source_id,
            method_id := method_id }
        else financials_single_metric metric_ids metric_id viz chart_title
          method_id results
      else financials_single_metric metric_ids metric_id viz chart_title
        method_id results
    else none

theorem buildSeriesForMetric_ni (n1 n2 : Option String) :
    ∀ (rs : List (String × String × Int × Int)) (pts : List (String × Int))
      (name : String),
    buildSeriesForMetric "net_income"
      (rs.map (fun r => (⟨false, r.1, r.2.1,
        [⟨some "net_income", n1, some r.2.2.1, none⟩,
         ⟨some "roe", n2, some r.2.2.2, none⟩]⟩ : FinRow)))
      name pts =
      ((if rs.isEmpty then name else pyOrS n1 "net_income"),
       pts ++ rs.map (fun r => (r.1, r.2.2.1))) := by
  intro rs
  induction rs with
  | nil =>
    intro pts name
    simp [buildSeriesForMetric]
  | cons r rest ih =>
    intro pts name
    simp [buildSeriesForMetric, ih]

theorem buildSeriesForMetric_roe (n1 n2 : Option String) :
    ∀ (rs : List (String × String × Int × Int)) (pts : List (String × Int))
      (name : String),
    buildSeriesForMetric "roe"
      (rs.map (fun r => (⟨false, r.1, r.2.1,
        [⟨some "net_income", n1, some r.2.2.1, none⟩,
         ⟨some "roe", n2, some r.2.2.2, none⟩]⟩ : FinRow)))
      name pts =
      ((if rs.isEmpty then name else pyOrS n2 "roe"),
       pts ++ rs.map (fun r => (r.1, r.2.2.2))) := by
  intro rs
  induction rs with
  | nil =>
    intro pts name
    simp [buildSeriesForMetric]
  | cons r rest ih =>
    intro pts name
    simp [buildSeriesForMetric, ih]

/-- C5 counterexample: with `metrics = ["net_income", "roe"]`, no explicit
`visualization.metric_id`, and a result row holding finite numeric values
for both metrics together with the display names the financials retriever
always attaches (`"name": row["metric_name"]`), the builder returns a
two-series chart whose series are named by the display names
`Net Income` / `Return on Equity` — not `net_income` / `roe` as claimed:
the series name is `metric_match.get("name") or configured_metric_id`, so
the id is only a fallback for rows without a display name. -/
theorem claim_C5_counterexample :
    ((build_chart_payload_for_input "financials" "metrics"
      ["net_income", "roe"] none "Overview" (some "Profitability")
      [⟨false, "RY", "2024 Q3",
        [⟨some "net_income", some "Net Income", some 5, none⟩,
         ⟨some "roe", some "Return on Equity", some 7, none⟩]⟩]).map
      (fun d => d.series.map ChartSeries.name)) =
      some ["Net Income", "Return on Equity"] ∧
    ¬ ((build_chart_payload_for_input "financials" "metrics"
      ["net_income", "roe"] none "Overview" (some "Profitability")
      [⟨false, "RY", "2024 Q3",
        [⟨some "net_income", some "Net Income", some 5, none⟩,
         ⟨some "roe", some "Return on Equity", some 7, none⟩]⟩]).map
      (fun d => d.series.map ChartSeries.name)) =
      some ["net_income", "roe"] := by
  refine ⟨by decide, by decide⟩

/-- C5 (amended): for every financials data input configured with
`metrics = ["net_income", "roe"]` and no explicit
`visualization.metric_id`, given non-empty result rows with finite
numeric values for both metrics and display names `n1` / `n2`, the Chart
Payload Builder returns a chart document with exactly two series, one per
configured metric in order (carrying the rows' per-bank values); each
series is named by its metric's display name when present and non-empty,
with the metric id as fallback — so the series are named
`net_income` / `roe` exactly when the rows carry no display names. -/
theorem claim_C5_two_metric_series (method_id : String)
    (viz : Option VizConfig) (hviz : viz.bind VizConfig.metric_id = none)
    (section_title : String) (subsection_title : Option String)
    (n1 n2 : Option String)
    (rows : List (String × String × Int × Int)) (hne : rows ≠ []) :
    ∃ doc : ChartDoc,
      build_chart_payload_for_input "financials" method_id
        ["net_income", "roe"] viz section_title subsection_title
        (rows.map (fun r => ⟨false, r.1, r.2.1,
          [⟨some "net_income", n1, some r.2.2.1, none⟩,
           ⟨some "roe", n2, some r.2.2.2, none⟩]⟩)) = some doc ∧
      doc.series.length = 2 ∧
      doc.series.map ChartSeries.name =
        [pyOrS n1 "net_income", pyOrS n2 "roe"] ∧
      doc.series.map ChartSeries.points =
        [rows.map (fun r => (r.1, r.2.2.1)),
         rows.map (fun r => (r.1, r.2.2.2))] := by
  have hmapne : rows.map (fun r => ((r.1 : String), (r.2.2.1 : Int))) ≠ [] := by
    simpa using hne
  have hmapne2 : rows.map (fun r => ((r.1 : String), (r.2.2.2 : Int))) ≠ [] := by
    simpa using hne
  have hrene : ¬ rows.isEmpty = true := by
    simpa [List.isEmpty_iff] using hne
  have hgrouped : buildGroupedSeries ["net_income", "roe"]
      (rows.map (fun r => (⟨false, r.1, r.2.1,
        [⟨some "net_income", n1, some r.2.2.1, none⟩,
         ⟨some "roe", n2, some r.2.2.2, none⟩]⟩ : FinRow))) =
      [⟨pyOrS n1 "net_income", rows.map (fun r => (r.1, r.2.2.1))⟩,
       ⟨pyOrS n2 "roe", rows.map (fun r => (r.1, r.2.2.2))⟩] := by
    unfold buildGroupedSeries
    rw [List.filterMap_cons, List.filterMap_cons, List.filterMap_nil]
    rw [buildSeriesForMetric_ni n1 n2 rows [] "net_income",
      buildSeriesForMetric_roe n1 n2 rows [] "roe"]
    simp [hmapne, hmapne2, hrene]
  refine ⟨{
      title := pyOrS (viz.bind VizConfig.title)
        (pyOrS subsection_title (section_title ++ " chart")),
      chart_type := pyOrS (viz.bind VizConfig.chart_type) "bar",
      x_label := "Bank",
      y_label := "Value",
      series := [⟨pyOrS n1 "net_income", rows.map (fun r => (r.1, r.2.2.1))⟩,
        ⟨pyOrS n2 "roe", rows.map (fun r => (r.1, r.2.2.2))⟩],
      source_id := "financials",
      method_id := method_id }, ?_, by simp, by simp, by simp⟩
  unfold build_chart_payload_for_input
  rw [if_neg (by simpa using hne)]
  rw [if_pos rfl]
  rw [if_pos (by exact ⟨hviz, by norm_num⟩)]
  rw [hgrouped]
  rw [if_pos (by simp)]

/-- Witness for C5 at one concrete row carrying the retriever-populated
display names. -/
theorem claim_C5_witness :
    ((none : Option VizConfig).bind VizConfig.metric_id = none) ∧
    ([("RY", "2024 Q3", (5 : Int), (7 : Int))] ≠ []) ∧
    (∃ doc : ChartDoc,
      build_chart_payload_for_input "financials" "metrics"
        ["net_income", "roe"] none "Overview" (some "Profitability")
        ([("RY", ("2024 Q3", (5 : Int), (7 : Int)))].map (fun r => ⟨false, r.1, r.2.1,
          [⟨some "net_income", some "Net Income", some r.2.2.1, none⟩,
           ⟨some "roe", some "Return on Equity", some r.2.2.2, none⟩]⟩)) = some doc ∧
      doc.series.length = 2 ∧
      doc.series.map ChartSeries.name = ["Net Income", "Return on Equity"] ∧
      doc.series.map ChartSeries.points =
        [[("RY", (5 : Int))], [("RY", (7 : Int))]]) := by
  refine ⟨rfl, by decide, ?_⟩
  have h := claim_C5_two_metric_series "metrics" none rfl "Overview"
    (some "Profitability") (some "Net Income") (some "Return on Equity")
    [("RY", ("2024 Q3", (5 : Int), (7 : Int)))] (by decide)
  simpa [pyOrS] using h

/-! ## Batch execution (`_run_generation`, pipeline.py:890-994) and batch
start (`start_generation`, pipeline.py:781-887).

The per-subsection work inside the try block — storage reads, context
building, LLM/chart generation, version saving — involves the external
collaborators, so its outcome per item is an oracle
`outcomes : Nat → Except String ContextEntry`: an exception with its
message, or success together with the context entry appended to the
job's accumulated context.  The `get_template` call before the loop sits
inside the outer try and is abstracted as `template_fetch`.  Wall-clock
timestamps (`started_at`/`completed_at`) are not modelled. -/

inductive GenerationStatus where
  | pending
  | in_progress
  | completed
  | failed
deriving DecidableEq, Repr

structure SubsectionProgress where
  subsection_id : String
  title : Option String
  position : Int
  section_title : String
  widget_type : Option String
  dependency_subsection_ids : List String
  status : GenerationStatus
  error : Option String
deriving DecidableEq, Repr

structure GenerationJob where
  job_id : String
  template_id : String
  status : GenerationStatus
  subsections : List SubsectionProgress
  current_index : Nat
  error : Option String
  generated_context : List ContextEntry
deriving DecidableEq, Repr

/-- The effect of one loop iteration of `_run_generation` on the item's
progress record (pipeline.py:906-986): a success completes the item, an
exception marks only it failed and retains the message. -/
def stepItem (outcomes : Nat → Except String ContextEntry) (i : Nat)
    (p : SubsectionProgress) : SubsectionProgress :=
  match outcomes i with
  | .ok _ => { p with status := .completed }
  | .error e => { p with status := .failed, error := some e }

/-- The sequential walk of `_run_generation` (pipeline.py:904-986),
carrying the processed progress records and the accumulated context. -/
def run_generation_loop (outcomes : Nat → Except String ContextEntry) :
    List SubsectionProgress → Nat → List SubsectionProgress →
    List ContextEntry → List SubsectionProgress × List ContextEntry
  | [], _, done, ctx => (done, ctx)
  | p :: rest, i, done, ctx =>
    match outcomes i with
    | .ok entry => run_generation_loop outcomes rest (i + 1)
        (done ++ [{ p with status := .completed }]) (ctx ++ [entry])
    | .error e => run_generation_loop outcomes rest (i + 1)
        (done ++ [{ p with status := .failed, error := some e }]) ctx

/-- Embedding of `_run_generation` (pipeline.py:890-994).  An exception
outside the per-item try block (only possible before the loop, at the
template fetch) fails the whole job; otherwise each subsection is wrapped
individually and the job is marked completed once the walk finishes. -/
def run_generation (job : GenerationJob)
    (template_fetch : Except String Unit)
    (outcomes : Nat → Except String ContextEntry) : GenerationJob :=
  match template_fetch with
  | .error e => { job with status := .failed, error := some e }
  | .ok _ =>
    let r := run_generation_loop outcomes job.subsections 0 [] job.generated_context
    { job with
      status := .completed
      subsections := r.1
      generated_context := r.2
      current_index := job.subsections.length - 1 }

theorem run_generation_loop_spec (outcomes : Nat → Except String ContextEntry) :
    ∀ (items : List SubsectionProgress) (i0 : Nat)
      (done : List SubsectionProgress) (ctx : List ContextEntry),
    (run_generation_loop outcomes items i0 done ctx).1 =
      done ++ (List.range items.length).zipWith
        (fun k p => stepItem outcomes (i0 + k) p) items := by
  intro items
  induction items with
  | nil =>
    intro i0 done ctx
    simp [run_generation_loop]
  | cons p rest ih =>
    intro i0 done ctx
    have hzip : ∀ j0 : Nat, (List.range (rest.length + 1)).zipWith
        (fun k q => stepItem outcomes (j0 + k) q) (p :: rest) =
        stepItem outcomes j0 p :: (List.range rest.length).zipWith
          (fun k q => stepItem outcomes (j0 + 1 + k) q) rest := by
      intro j0
      rw [List.range_succ_eq_map]
      simp only [List.zipWith_cons_cons, List.zipWith_map_left]
      congr 1
      have hfe : (fun (a : Nat) (b : SubsectionProgress) =>
          stepItem outcomes (j0 + a.succ) b) =
          (fun (k : Nat) (q : SubsectionProgress) =>
            stepItem outcomes (j0 + 1 + k) q) := by
        funext a b
        congr 1
        omega
      rw [hfe]
    simp only [List.length_cons, hzip i0]
    cases houtcome : outcomes i0 with
    | ok entry =>
      simp only [run_generation_loop, houtcome, ih, stepItem]
      simp [List.append_assoc]
    | error e =>
      simp only [run_generation_loop, houtcome, ih, stepItem]
      simp [List.append_assoc]

/-- C1: in a background batch run with a successful setup phase, for every
per-item outcome assignment the job ends `completed` (per-item exceptions
are never re-raised to fail the job); each subsection whose generation
raises is marked `failed` with exactly the exception message retained,
every other subsection is processed independently and marked `completed`,
and every subsection of the job is executed (the output records all of
them, in order, with ids preserved). -/
theorem claim_C1_batch_failure_isolation (job : GenerationJob)
    (outcomes : Nat → Except String ContextEntry) :
    (run_generation job (Except.ok ()) outcomes).status =
      GenerationStatus.completed ∧
    (run_generation job (Except.ok ()) outcomes).subsections.length =
      job.subsections.length ∧
    (∀ i, (hi : i < job.subsections.length) →
      (hi2 : i < (run_generation job (Except.ok ()) outcomes).subsections.length) →
      ((run_generation job (Except.ok ()) outcomes).subsections.get
          ⟨i, hi2⟩).subsection_id =
        (job.subsections.get ⟨i, hi⟩).subsection_id ∧
      (∀ e, outcomes i = .error e →
        ((run_generation job (Except.ok ()) outcomes).subsections.get
            ⟨i, hi2⟩).status = GenerationStatus.failed ∧
        ((run_generation job (Except.ok ()) outcomes).subsections.get
            ⟨i, hi2⟩).error = some e) ∧
      (∀ entry, outcomes i = .ok entry →
        ((run_generation job (Except.ok ()) outcomes).subsections.get
            ⟨i, hi2⟩).status = GenerationStatus.completed ∧
        ((run_generation job (Except.ok ()) outcomes).subsections.get
            ⟨i, hi2⟩).error = (job.subsections.get ⟨i, hi⟩).error)) := by
  have hsubs : (run_generation job (Except.ok ()) outcomes).subsections =
      (List.range job.subsections.length).zipWith
        (fun k p => stepItem outcomes k p) job.subsections := by
    show (run_generation_loop outcomes job.subsections 0 [] job.generated_context).1 = _
    rw [run_generation_loop_spec]
    simp
  have hlen : (run_generation job (Except.ok ()) outcomes).subsections.length =
      job.subsections.length := by
    rw [hsubs]
    simp
  refine ⟨rfl, hlen, ?_⟩
  intro i hi hi2
  have hget : (run_generation job (Except.ok ()) outcomes).subsections.get ⟨i, hi2⟩ =
      stepItem outcomes i (job.subsections.get ⟨i, hi⟩) := by
    simp only [List.get_eq_getElem]
    rw [List.getElem_of_eq hsubs hi2]
    rw [List.getElem_zipWith]
    congr 1
    simp
  rw [hget]
  refine ⟨?_, ?_, ?_⟩
  · cases houtcome : outcomes i <;> simp [stepItem, houtcome]
  · intro e he
    simp [stepItem, he]
  · intro entry he
    simp [stepItem, he]

/-- Witness for C1: scenario 4 — a batch of 3 subsections where the
second raises; the job completes, subsection 2 is failed with the
non-empty message, subsections 1 and 3 are completed. -/
theorem claim_C1_witness :
    (run_generation
      ⟨"j", "t", GenerationStatus.pending,
        [⟨"s1", none, 1, "S", none, [], GenerationStatus.pending, none⟩,
         ⟨"s2", none, 2, "S", none, [], GenerationStatus.pending, none⟩,
         ⟨"s3", none, 3, "S", none, [], GenerationStatus.pending, none⟩],
        0, none, []⟩
      (Except.ok ())
      (fun i => if i = 1 then Except.error "boom"
        else Except.ok ⟨"S", "t", "c", none⟩)).status =
      GenerationStatus.completed ∧
    (run_generation
      ⟨"j", "t", GenerationStatus.pending,
        [⟨"s1", none, 1, "S", none, [], GenerationStatus.pending, none⟩,
         ⟨"s2", none, 2, "S", none, [], GenerationStatus.pending, none⟩,
         ⟨"s3", none, 3, "S", none, [], GenerationStatus.pending, none⟩],
        0, none, []⟩
      (Except.ok ())
      (fun i => if i = 1 then Except.error "boom"
        else Except.ok ⟨"S", "t", "c", none⟩)).subsections.map
        SubsectionProgress.status =
      [GenerationStatus.completed, GenerationStatus.failed,
        GenerationStatus.completed] ∧
    (run_generation
      ⟨"j", "t", GenerationStatus.pending,
        [⟨"s1", none, 1, "S", none, [], GenerationStatus.pending, none⟩,
         ⟨"s2", none, 2, "S", none, [], GenerationStatus.pending, none⟩,
         ⟨"s3", none, 3, "S", none, [], GenerationStatus.pending, none⟩],
        0, none, []⟩
      (Except.ok ())
      (fun i => if i = 1 then Except.error "boom"
        else Except.ok ⟨"S", "t", "c", none⟩)).subsections.map
        SubsectionProgress.error = [none, some "boom", none] ∧
    "boom" ≠ "" :=
  ⟨(claim_C1_batch_failure_isolation
      ⟨"j", "t", GenerationStatus.pending,
        [⟨"s1", none, 1, "S", none, [], GenerationStatus.pending, none⟩,
         ⟨"s2", none, 2, "S", none, [], GenerationStatus.pending, none⟩,
         ⟨"s3", none, 3, "S", none, [], GenerationStatus.pending, none⟩],
        0, none, []⟩
      (fun i => if i = 1 then Except.error "boom"
        else Except.ok ⟨"S", "t", "c", none⟩)).1,
    by decide, by decide, by decide⟩

/-! ## Batch start (`start_generation`, pipeline.py:781-887) and status
polling (`get_generation_status`, pipeline.py:751-778).

The section tree comes from the storage collaborator; each subsection
additionally carries an oracle `resolution`: the outcome of
`_validate_data_source_config` under the merged run inputs — an error
message, or the resolved configuration's dependency references
(`dependencies.section_ids`, `dependencies.subsection_ids`) from which
`_resolve_dependency_subsection_ids` expands the dependency ids.  The
preset merge and best-effort preset save touch only the storage
collaborator and cannot change the control flow, so they are not
modelled.  The background task launch (`asyncio.create_task`) is
modelled as a boolean "task started" output. -/

structure SubM where
  id : String
  title : Option String
  position : Int
  widget_type : Option String
  instructions : Option String
  resolution : Except String (List String × List String)

structure SectionM where
  id : String
  title : Option String
  position : Int
  subsections : List SubM

structure ValidationError where
  subsection_id : String
  section_title : String
  reason : String
deriving DecidableEq, Repr

inductive StartOutcome where
  | error (msg : String) (validation_errors : List ValidationError)
  | ok (job_id : String) (total_subsections : Nat)
deriving DecidableEq, Repr

/-- Python truthiness of an optional string (`None` and `""` falsy). -/
def strTruthy (v : Option String) : Bool :=
  match v with
  | some s => ¬ s = ""
  | none => false

/-- First-seen-order accumulation used by the `seen` set in
`_resolve_dependency_subsection_ids`. -/
def firstSeenAdd (acc : List String) (x : String) : List String :=
  if acc.contains x then acc else acc ++ [x]

/-- Embedding of `_resolve_dependency_subsection_ids`
(pipeline.py:192-220): expand section references to their subsections in
position order, then add direct subsection references, dropping the
current subsection and duplicates. -/
def resolve_dependency_subsection_ids (dep_section_ids : List String)
    (dep_subsection_ids : List String)
    (section_to_subsections : List (String × List String))
    (current : Option String) : List String :=
  let step1 := dep_section_ids.foldl (fun acc sid =>
    ((((section_to_subsections.find? (fun kv => kv.1 = sid)).map
      (fun kv => kv.2)).getD []).foldl
      (fun acc2 ssid =>
        if current = some ssid then acc2 else firstSeenAdd acc2 ssid) acc)) []
  dep_subsection_ids.foldl (fun acc ssid =>
    if current = some ssid then acc else firstSeenAdd acc ssid) step1

/-- Embedding of `_build_template_structure_maps` (pipeline.py:151-189):
section id to position-ordered subsection ids, and subsection id to
`(section_position, subsection_position)`. -/
def build_template_structure_maps (sections : List SectionM) :
    List (String × List String) × List (String × (Int × Int)) :=
  sections.foldl (fun maps sec =>
    if sec.id = "" then maps
    else
      let ordered := sec.subsections.insertionSort
        (fun a b => a.position ≤ b.position)
      let kept := ordered.filter (fun sub => ¬ sub.id = "")
      (maps.1 ++ [(sec.id, kept.map SubM.id)],
       maps.2 ++ kept.map (fun sub => (sub.id, (sec.position, sub.position)))))
    ([], [])

/-- The eligibility/validation scan of `start_generation`
(pipeline.py:810-845): collect the validation errors and, in document
order, the progress records of the eligible subsections that resolved
cleanly. -/
def collect_eligible (sections : List SectionM)
    (section_to_subsections : List (String × List String)) :
    List ValidationError × List SubsectionProgress :=
  sections.foldl (fun acc sec =>
    let section_title := pyOrS sec.title ("Section " ++ toString sec.position)
    sec.subsections.foldl (fun acc2 sub =>
      if strTruthy sub.instructions ∨ sub.widget_type = some "chart" then
        match sub.resolution with
        | .error msg => (acc2.1 ++ [⟨sub.id, section_title, msg⟩], acc2.2)
        | .ok deps =>
          (acc2.1, acc2.2 ++ [{
            subsection_id := sub.id,
            title := sub.title,
            position := sub.position,
            section_title := section_title,
            widget_type := sub.widget_type,
            dependency_subsection_ids := resolve_dependency_subsection_ids
              deps.1 deps.2 section_to_subsections (some sub.id),
            status := GenerationStatus.pending,
            error := none }])
      else acc2) acc) ([], [])

/-- Embedding of `get_generation_status` (pipeline.py:751-778): a lookup
in the in-memory job table, `none` when the job id is unknown. -/
def get_generation_status (jobs : List (String × GenerationJob))
    (job_id : String) : Option GenerationJob :=
  (jobs.find? (fun kv => kv.1 = job_id)).map (fun kv => kv.2)

/-- Embedding of `start_generation` (pipeline.py:781-887): validate every
eligible subsection up front, compute the topological order, and only on
success register the job in the table and start the background task.
Returns the call result, the updated job table and whether a background
task was started. -/
def start_generation_core (new_job_id : String) (template_id : String)
    (jobs : List (String × GenerationJob))
    (scanned : List ValidationError × List SubsectionProgress)
    (om : List (String × (Int × Int))) :
    StartOutcome × List (String × GenerationJob) × Bool :=
  if ¬ scanned.1.isEmpty then
    (.error "Generation blocked: one or more eligible subsections are missing data source configuration."
      scanned.1, jobs, false)
  else if scanned.2.isEmpty then
    (.error "No eligible subsections found" [], jobs, false)
  else
    match (topological_order_subsection_ids
        (scanned.2.map (fun p => p.subsection_id))
        (fun sid => (((scanned.2.find? (fun p => p.subsection_id = sid)).map
          (fun p => p.dependency_subsection_ids)).getD []))
        om).2 with
    | some err => (.error err [], jobs, false)
    | none =>
      let ordered_progress := (topological_order_subsection_ids
        (scanned.2.map (fun p => p.subsection_id))
        (fun sid => (((scanned.2.find? (fun p => p.subsection_id = sid)).map
          (fun p => p.dependency_subsection_ids)).getD []))
        om).1.filterMap (fun sid =>
          scanned.2.find? (fun p => p.subsection_id = sid))
      let job : GenerationJob := {
        job_id := new_job_id,
        template_id := template_id,
        status := GenerationStatus.pending,
        subsections := ordered_progress,
        current_index := 0,
        error := none,
        generated_context := [] }
      (.ok new_job_id ordered_progress.length,
        jobs ++ [(new_job_id, job)], true)

def start_generation (new_job_id : String) (template_id : String)
    (sections : List SectionM) (jobs : List (String × GenerationJob)) :
    StartOutcome × List (String × GenerationJob) × Bool :=
  if sections.isEmpty then
    (.error "No sections found in template" [], jobs, false)
  else
    start_generation_core new_job_id template_id jobs
      (collect_eligible sections (build_template_structure_maps sections).1)
      (build_template_structure_maps sections).2

/-- C10: whenever `start_generation` returns an error result (no
sections, validation errors, no eligible subsections, or a dependency
cycle), the in-memory job table is unchanged, no background task is
started, and polling the fresh job id returns nothing — a job becomes
pollable only when the call returns ok. -/
theorem claim_C10_error_leaves_job_table (new_job_id : String)
    (template_id : String) (sections : List SectionM)
    (jobs : List (String × GenerationJob))
    (hfresh : ∀ kv ∈ jobs, kv.1 ≠ new_job_id)
    (msg : String) (verrs : List ValidationError)
    (herr : (start_generation new_job_id template_id sections jobs).1 =
      .error msg verrs) :
    (start_generation new_job_id template_id sections jobs).2.1 = jobs ∧
    (start_generation new_job_id template_id sections jobs).2.2 = false ∧
    get_generation_status
      (start_generation new_job_id template_id sections jobs).2.1
      new_job_id = none := by
  have hlookup : get_generation_status jobs new_job_id = none := by
    unfold get_generation_status
    rw [List.find?_eq_none.mpr (fun kv hkv => by
      simpa using hfresh kv hkv)]
    rfl
  unfold start_generation at herr ⊢
  by_cases h1 : sections.isEmpty = true
  · rw [if_pos h1]
    exact ⟨rfl, rfl, hlookup⟩
  · rw [if_neg h1] at herr ⊢
    unfold start_generation_core at herr ⊢
    by_cases h2 : ¬ ((collect_eligible sections
        (build_template_structure_maps sections).1).1.isEmpty = true)
    · rw [if_pos h2]
      exact ⟨rfl, rfl, hlookup⟩
    · rw [if_neg h2] at herr ⊢
      by_cases h3 : (collect_eligible sections
          (build_template_structure_maps sections).1).2.isEmpty = true
      · rw [if_pos h3]
        exact ⟨rfl, rfl, hlookup⟩
      · rw [if_neg h3] at herr ⊢
        rcases h4 : (topological_order_subsection_ids
            ((collect_eligible sections
              (build_template_structure_maps sections).1).2.map
                (fun p => p.subsection_id))
            (fun sid => ((((collect_eligible sections
              (build_template_structure_maps sections).1).2.find?
                (fun p => p.subsection_id = sid)).map
              (fun p => p.dependency_subsection_ids)).getD []))
            (build_template_structure_maps sections).2).2 with _ | err
        · rw [h4] at herr
          simp at herr
        · rw [h4]
          exact ⟨rfl, rfl, hlookup⟩

/-- Witness for C10: a template with no sections produces an error, an
unchanged (empty) job table, no task, and an unpollable id. -/
theorem claim_C10_witness :
    (start_generation "job-1" "t" [] []).2.1 = [] ∧
    (start_generation "job-1" "t" [] []).2.2 = false ∧
    get_generation_status (start_generation "job-1" "t" [] []).2.1
      "job-1" = none :=
  claim_C10_error_leaves_job_table "job-1" "t" [] []
    (fun kv hkv => absurd hkv (by simp))
    "No sections found in template" [] rfl

end ReportDesigner
